import Mathlib

/-!
# eModbus: `ModbusClientTCPAsyncOne`

A shallow embedding of `src/ModbusClientTCPAsyncOne.{h,cpp}`: the MBAP header
(`ModbusTCPhead`), the single-slot client object, its transport callbacks
(`_onConnect`, `_onDisconnect`, `_onAck`, `_onError`, `_onData`, `_onPoll`),
`_send`, `connect` and the blocking `syncRequestM`.

Conventions.
* A byte is a `Fin 256`; `uint16_t` and `uint32_t` values are natural numbers
  reduced `% 65536` and `% 4294967296` wherever the source can overflow.
* The `while` loop of `_onData` is iterated with explicit fuel: one unit of
  fuel is one execution of the loop body, and `none` means that the fuel ran
  out while the loop condition still held.
* The busy-wait loops of `connect` and `syncRequestM` consume one `Tick` of a
  schedule per `delay(10)`: the tick says how much the clock advances and which
  transport notifications are delivered meanwhile.
-/

namespace EModbus

/-- One octet (`uint8_t`). -/
abbrev Byte := Fin 256

/-- The error kinds used by this client (`Error` of `ModbusTypeDefs.h`). -/
inductive Error where
  | SUCCESS
  | TIMEOUT
  | IP_CONNECTION_FAILED
  | EMPTY_MESSAGE
  deriving DecidableEq, Repr

/-- Modelled from the spec: the Message value type (`ModbusMessage.h` is not among the
sources). A message is an opaque byte payload or an error tag
`(serverId, functionCode, errorKind)`; an error-tagged message carries no payload bytes. -/
inductive ModbusMessage where
  | payload (bytes : List Byte)
  | error (serverID functionCode : Byte) (kind : Error)
  deriving DecidableEq, Repr

namespace ModbusMessage

/-- Raw byte access (`data()`). -/
def data : ModbusMessage → List Byte
  | payload bytes => bytes
  | error _ _ _ => []

/-- Number of bytes (`size()`). -/
def size (m : ModbusMessage) : Nat := m.data.length

/-- The test `!msg`: the message holds no byte. -/
def isEmpty (m : ModbusMessage) : Bool := m.size == 0

/-- Accessor `getServerID()`: the first byte of the PDU. -/
def getServerID (m : ModbusMessage) : Byte := m.data.getD 0 0

/-- Accessor `getFunctionCode()`: the second byte of the PDU. -/
def getFunctionCode (m : ModbusMessage) : Byte := m.data.getD 1 0

/-- The call `setError(serverID, functionCode, kind)` on a fresh message. -/
def setError (serverID functionCode : Byte) (kind : Error) : ModbusMessage :=
  error serverID functionCode kind

/-- The sequence `resize(n); clear(); add(src, n)`: the message now holds exactly `src`. -/
def assign (_m : ModbusMessage) (src : List Byte) : ModbusMessage := payload src

/-- The error kind of a message, if it is an error response. -/
def errorKind : ModbusMessage → Option Error
  | payload _ => none
  | error _ _ kind => some kind

end ModbusMessage

/-- Modelled from the spec: the Transport collaborator (`AsyncClient` of AsyncTCP is not among
the sources). The first four fields are what the status queries `state()`, `connected()`,
`canSend()` and `space()` answer; the others record what the client handed to the transport. -/
structure AsyncClient where
  state : Nat
  connected : Bool
  canSend : Bool
  space : Nat
  written : List Byte
  sendCalls : Nat
  connectCalls : Nat
  closeCalls : List Bool
  deriving DecidableEq, Repr

namespace AsyncClient

/-- The call `add(bytes, n, ASYNC_WRITE_FLAG_COPY)`: the bytes are queued for sending. -/
def add (t : AsyncClient) (bytes : List Byte) : AsyncClient :=
  { t with written := t.written ++ bytes, space := t.space - bytes.length }

/-- The call `send()`. -/
def send (t : AsyncClient) : AsyncClient := { t with sendCalls := t.sendCalls + 1 }

/-- The call `connect(host, port)`: a transport-level connect is issued. -/
def connect (t : AsyncClient) : AsyncClient := { t with connectCalls := t.connectCalls + 1 }

/-- The call `close(force)`: the connection is closed at once. -/
def close (t : AsyncClient) (force : Bool) : AsyncClient :=
  { t with state := 0, connected := false, canSend := false,
           closeCalls := t.closeCalls ++ [force] }

end AsyncClient

/-- The header class `ModbusTCPhead`; the three fields are `uint16_t`. -/
structure ModbusTCPhead where
  transactionID : Nat
  protocolID : Nat
  len : Nat
  deriving DecidableEq, Repr

namespace ModbusTCPhead

/-- The conversion `operator const uint8_t *`: the six header bytes, MSB first. -/
def toBytes (h : ModbusTCPhead) : List Byte :=
  [ Fin.ofNat ((h.transactionID >>> 8) &&& 0xFF),
    Fin.ofNat (h.transactionID &&& 0xFF),
    Fin.ofNat ((h.protocolID >>> 8) &&& 0xFF),
    Fin.ofNat (h.protocolID &&& 0xFF),
    Fin.ofNat ((h.len >>> 8) &&& 0xFF),
    Fin.ofNat (h.len &&& 0xFF) ]

end ModbusTCPhead

/-- The enumeration `ClientState`. -/
inductive ClientState where
  | DISCONNECTED
  | CONNECTING
  | CONNECTED
  deriving DecidableEq, Repr

/-- The data members of `ModbusClientTCPAsyncOne`. -/
structure ModbusClientTCPAsyncOne where
  MTA_client : AsyncClient
  MTA_timeout : Nat
  MTA_idleTimeout : Nat
  MTA_qLimit : Nat
  MTA_lastActivity : Nat
  MTA_state : ClientState
  MTA_port : Nat
  _isRequestReady : Bool
  _request : ModbusMessage
  _isResponseReady : Bool
  _response : ModbusMessage
  _transactionID : Nat
  deriving DecidableEq, Repr

/-- A 16-bit value read from two consecutive bytes: `(hi << 8) | lo` stored in a `uint16_t`. -/
def word16 (hi lo : Byte) : Nat := ((hi.val <<< 8) ||| lo.val) % 65536

namespace ModbusClientTCPAsyncOne

/-- The projection `_state()` of the transport status code. -/
def _state (c : ModbusClientTCPAsyncOne) : ClientState :=
  match c.MTA_client.state with
  | 4 => ClientState.CONNECTED
  | 2 => ClientState.CONNECTING
  | 3 => ClientState.CONNECTING
  | _ => ClientState.DISCONNECTED

/-- The method `disconnect(force)`. -/
def disconnect (c : ModbusClientTCPAsyncOne) (force : Bool) : ModbusClientTCPAsyncOne :=
  { c with MTA_client := c.MTA_client.close force }

/-- The method `setTimeout`. -/
def setTimeout (c : ModbusClientTCPAsyncOne) (timeout : Nat) : ModbusClientTCPAsyncOne :=
  { c with MTA_timeout := timeout % 4294967296 }

/-- The method `setIdleTimeout`. -/
def setIdleTimeout (c : ModbusClientTCPAsyncOne) (timeout : Nat) : ModbusClientTCPAsyncOne :=
  { c with MTA_idleTimeout := timeout % 4294967296 }

/-- The callback `_onConnect`; `now` is the value of `millis()`. -/
def _onConnect (now : Nat) (c : ModbusClientTCPAsyncOne) : ModbusClientTCPAsyncOne :=
  { c with MTA_lastActivity := now }

/-- The callback `_onDisconnect`. -/
def _onDisconnect (c : ModbusClientTCPAsyncOne) : ModbusClientTCPAsyncOne :=
  { c with _isRequestReady := false, _isResponseReady := true,
           _response := ModbusMessage.setError 0 0 Error.IP_CONNECTION_FAILED }

/-- The callback `_onAck`. -/
def _onAck (now : Nat) (c : ModbusClientTCPAsyncOne) : ModbusClientTCPAsyncOne :=
  { c with MTA_lastActivity := now }

/-- The callback `_onPoll`: the subtraction is done on `uint32_t`. -/
def _onPoll (now : Nat) (c : ModbusClientTCPAsyncOne) : ModbusClientTCPAsyncOne :=
  if (now + 4294967296 - c.MTA_lastActivity) % 4294967296 > c.MTA_idleTimeout then
    c.disconnect false
  else c

/-- The callback `_onError`. -/
def _onError (c : ModbusClientTCPAsyncOne) : ModbusClientTCPAsyncOne :=
  c.disconnect true

/-- The method `_send`; `now` is the value of `millis()`. Returns the `bool` result and the
client afterwards. -/
def _send (now : Nat) (c : ModbusClientTCPAsyncOne) : Bool × ModbusClientTCPAsyncOne :=
  let c := { c with MTA_lastActivity := now }
  if !c._isRequestReady then (false, c)
  else if !c.MTA_client.connected || !c.MTA_client.canSend then (false, c)
  else
    let head : ModbusTCPhead :=
      { transactionID := c._transactionID % 65536, protocolID := 0,
        len := c._request.size % 65536 }
    let c := { c with _transactionID := (c._transactionID + 1) % 4294967296 }
    if c.MTA_client.space < (c._request.size % 4294967296 + 6) % 4294967296 then (false, c)
    else
      let t := c.MTA_client.add head.toBytes
      let t := t.add c._request.data
      let t := t.send
      (true, { c with MTA_client := t, _isRequestReady := false })

set_option linter.unusedVariables false in
/-- One execution of the body of the `while (length > 0)` loop of `_onData`, on the client and
the bytes from `data` on (`length` is the length of the list). The local `transactionID` is
read from the header and used nowhere, as in the source. -/
def onDataStep (c : ModbusClientTCPAsyncOne) (data : List Byte) :
    ModbusClientTCPAsyncOne × List Byte :=
  if data.length > 6 then
    let transactionID := word16 (data.getD 0 0) (data.getD 1 0)
    let protocolID := word16 (data.getD 2 0) (data.getD 3 0)
    let messageLength := word16 (data.getD 4 0) (data.getD 5 0)
    if protocolID = 0 ∧ data.length ≥ messageLength + 6 ∧ messageLength < 256 then
      ({ c with _response := c._response.assign ((data.drop 6).take messageLength),
                _isResponseReady := true },
        data.drop (6 + messageLength))
    else (c, data)
  else (c, data)

/-- The loop `while (length > 0) { ... }` of `_onData`, with at most `fuel` executions of the
body. -/
def onDataLoop : Nat → ModbusClientTCPAsyncOne → List Byte →
    Option (ModbusClientTCPAsyncOne × List Byte)
  | fuel, c, data =>
    if data.length = 0 then some (c, data)
    else match fuel with
      | 0 => none
      | fuel + 1 => onDataLoop fuel (onDataStep c data).1 (onDataStep c data).2

/-- The callback `_onData(data, length)`; `now` is the value of `millis()`. -/
def _onData (fuel : Nat) (now : Nat) (c : ModbusClientTCPAsyncOne) (data : List Byte) :
    Option ModbusClientTCPAsyncOne :=
  match onDataLoop fuel { c with MTA_lastActivity := now } data with
  | none => none
  | some (c, _) => some (_send now c).2

/-- The responses stored by the first `n` executions of the loop body of `_onData`, in the
order in which they are stored; an execution stores a response exactly when it consumes
bytes. -/
def onDataEmits : Nat → ModbusClientTCPAsyncOne → List Byte → List ModbusMessage
  | 0, _, _ => []
  | n + 1, c, data =>
    if data.length = 0 then []
    else if (onDataStep c data).2.length < data.length then
      (onDataStep c data).1._response :: onDataEmits n (onDataStep c data).1 (onDataStep c data).2
    else onDataEmits n (onDataStep c data).1 (onDataStep c data).2

end ModbusClientTCPAsyncOne

/-- A frame as the wire format prescribes it: the six header bytes of
`ModbusTCPhead(transactionID, 0, length)` followed by the payload. -/
def frame (transactionID : Nat) (payload : List Byte) : List Byte :=
  ModbusTCPhead.toBytes
    { transactionID := transactionID % 65536, protocolID := 0,
      len := payload.length % 65536 } ++ payload

/-- A delivery made of several frames one after the other; each frame is given by its
transaction ID and its payload. -/
def frames : List (Nat × List Byte) → List Byte
  | [] => []
  | f :: fs => frame f.1 f.2 ++ frames fs

/-- A payload of 256 zero bytes: one byte more than the decoder accepts. -/
def longPayload : List Byte := List.replicate 256 0

/-- The default response and connect timeout, in milliseconds. -/
def DEFAULTTIMEOUT : Nat := 10000

/-- The default idle timeout, in milliseconds. -/
def DEFAULTIDLETIME : Nat := 60000

/-- A transport on which nothing has happened yet (`MTA_client()`). -/
def AsyncClient.fresh : AsyncClient :=
  { state := 0, connected := false, canSend := false, space := 0, written := [],
    sendCalls := 0, connectCalls := 0, closeCalls := [] }

/-- A transport whose connection is established, with `space` bytes of room to send; it can
send when there is room. -/
def AsyncClient.established (space : Nat) : AsyncClient :=
  { AsyncClient.fresh with
    state := 4, connected := true, canSend := decide (0 < space), space := space }

/-- The constructor. It does not initialise `_transactionID`: `transactionID` stands for
whatever value the member holds. -/
def ModbusClientTCPAsyncOne.new (port queueLimit transactionID : Nat) :
    ModbusClientTCPAsyncOne :=
  { MTA_client := AsyncClient.fresh,
    MTA_timeout := DEFAULTTIMEOUT,
    MTA_idleTimeout := DEFAULTIDLETIME,
    MTA_qLimit := queueLimit,
    MTA_lastActivity := 0,
    MTA_state := ClientState.DISCONNECTED,
    MTA_port := port,
    _isRequestReady := false,
    _request := ModbusMessage.payload [],
    _isResponseReady := false,
    _response := ModbusMessage.payload [],
    _transactionID := transactionID % 4294967296 }

/-- A client as constructed with the default port and queue limit, `_transactionID` holding
`transactionID`, whose transport has since connected. -/
def connectedClient (transactionID : Nat) : ModbusClientTCPAsyncOne :=
  { ModbusClientTCPAsyncOne.new 502 100 transactionID with
    MTA_client := AsyncClient.established 1436 }

/-- A transport notification, as registered in the constructor (`onConnect`, `onDisconnect`,
`onError`, `onAck`, `onData`, `onPoll`), or a change of what the status queries of the transport
answer. -/
inductive Event where
  | connect
  | disconnect
  | error
  | ack
  | data (bytes : List Byte)
  | poll
  | status (state : Nat) (connected canSend : Bool) (space : Nat)
  deriving DecidableEq, Repr

/-- The notifications whose callbacks touch neither the stored response nor its ready flag:
all of them but `onData` and `onDisconnect`. -/
def Event.silent : Event → Bool
  | Event.data _ => false
  | Event.disconnect => false
  | _ => true

/-- The notifications that neither deliver data nor report the transport status code 4
(established): while only these arrive, a connection that is not established stays so. -/
def Event.down : Event → Bool
  | Event.data _ => false
  | Event.status state _ _ _ => state != 4
  | _ => true

/-- What happens during one `delay(10)`: the clock advances by `elapsed` milliseconds and the
notifications `events` are delivered, in this order. -/
structure Tick where
  elapsed : Nat
  events : List Event
  deriving DecidableEq, Repr

/-- The client together with the millisecond clock behind `millis()`. -/
structure World where
  client : ModbusClientTCPAsyncOne
  clock : Nat
  deriving DecidableEq, Repr

namespace World

/-- The call `millis()`: the clock as a `uint32_t`. -/
def millis (w : World) : Nat := w.clock % 4294967296

/-- Delivery of one notification to the callback registered for it in the constructor.
`none`: the callback `_onData` does not return. -/
def dispatch (w : World) : Event → Option World
  | Event.connect => some { w with client := w.client._onConnect w.millis }
  | Event.disconnect => some { w with client := w.client._onDisconnect }
  | Event.error => some { w with client := w.client._onError }
  | Event.ack => some { w with client := w.client._onAck w.millis }
  | Event.data bytes =>
    match w.client._onData bytes.length w.millis bytes with
    | none => none
    | some c => some { w with client := c }
  | Event.poll => some { w with client := w.client._onPoll w.millis }
  | Event.status state connected canSend space =>
    some { w with client := { w.client with MTA_client :=
      { w.client.MTA_client with state := state, connected := connected,
                                 canSend := canSend, space := space } } }

/-- Delivery of a list of notifications, one after the other. -/
def deliver : World → List Event → Option World
  | w, [] => some w
  | w, e :: es =>
    match w.dispatch e with
    | none => none
    | some w1 => deliver w1 es

/-- The call `delay(10)` during which the tick `t` happens. -/
def delay (w : World) (t : Tick) : Option World :=
  deliver { w with clock := w.clock + t.elapsed } t.events

/-- The loop `while (_state() != CONNECTED) { ... delay(10); }` of `connect`; `timeout` is the
deadline computed before the loop. Returns the world and the ticks not yet consumed. -/
def connectWait (timeout : Nat) : List Tick → World → Option (World × List Tick)
  | sched, w =>
    if w.client._state = ClientState.CONNECTED then some (w, sched)
    else if w.millis ≥ timeout then
      some ({ w with client := w.client.disconnect true }, sched)
    else match sched with
      | [] => none
      | t :: rest =>
        match w.delay t with
        | none => none
        | some w1 => connectWait timeout rest w1

/-- The method `connect()`. The deadline `millis() + MTA_timeout` is stored in an `int` and
converted back to unsigned for the comparison, which is arithmetic modulo 2^32. -/
def connect (sched : List Tick) (w : World) : Option (World × List Tick) :=
  if w.client._state = ClientState.CONNECTED then some (w, sched)
  else
    let w1 := { w with client := { w.client with MTA_client := w.client.MTA_client.connect } }
    connectWait ((w1.millis + w1.client.MTA_timeout) % 4294967296) sched w1

/-- The loop `while (!_isResponseReady) { ... delay(10); }` of `syncRequestM` and the three
statements after it; `timeout` is the deadline `_timeout` computed before the loop. -/
def awaitResponse (msg : ModbusMessage) (timeout : Nat) :
    List Tick → World → Option (ModbusMessage × World)
  | sched, w =>
    if w.client._isResponseReady then
      some (w.client._response,
        { w with client := { w.client with _isRequestReady := false,
                                           _isResponseReady := false } })
    else if w.millis ≥ timeout then
      some (ModbusMessage.setError msg.getServerID msg.getFunctionCode Error.TIMEOUT, w)
    else match sched with
      | [] => none
      | t :: rest =>
        match w.delay t with
        | none => none
        | some w1 => awaitResponse msg timeout rest w1

/-- The three assignments of `syncRequestM` that take a non-empty request in:
`_isResponseReady = false; _isRequestReady = true; _request = msg`. -/
def accept (w : World) (msg : ModbusMessage) : World :=
  { w with client := { w.client with _isResponseReady := false,
                                     _isRequestReady := true,
                                     _request := msg } }

/-- The method `syncRequestM(msg, token)` run against the schedule `sched`. `none`: the
schedule ended, or a callback did not return, before the method returned. -/
def syncRequestM (msg : ModbusMessage) (sched : List Tick) (w : World) :
    Option (ModbusMessage × World) :=
  if msg.isEmpty then
    some (ModbusMessage.setError msg.getServerID msg.getFunctionCode Error.EMPTY_MESSAGE, w)
  else
    let w0 := w.accept msg
    match connect sched w0 with
    | none => none
    | some (w1, sched1) =>
      if w1.client._state ≠ ClientState.CONNECTED then
        some (ModbusMessage.setError msg.getServerID msg.getFunctionCode
          Error.IP_CONNECTION_FAILED, w1)
      else
        let w2 := { w1 with client := (w1.client._send w1.millis).2 }
        awaitResponse msg ((w2.millis + w2.client.MTA_timeout) % 4294967296) sched1 w2

end World

/-! ## Header arithmetic and the decode loop -/

open ModbusClientTCPAsyncOne

theorem word16_eq (hi lo : Byte) : word16 hi lo = hi.val * 256 + lo.val := by
  unfold word16
  have h1 : lo.val < 2 ^ 8 := lo.isLt
  have h2 : hi.val < 256 := hi.isLt
  rw [Nat.shiftLeft_eq, Nat.mul_comm, ← Nat.mul_add_lt_is_or h1]
  have : 2 ^ 8 * hi.val + lo.val < 65536 := by norm_num; omega
  rw [Nat.mod_eq_of_lt this]

theorem byte_hi (n : Nat) : ((Fin.ofNat ((n >>> 8) &&& 0xFF) : Byte)).val = n / 256 % 256 := by
  have h : (0xFF : Nat) = 2 ^ 8 - 1 := by norm_num
  simp only [Fin.ofNat, h, Nat.and_pow_two_sub_one_eq_mod, Nat.shiftRight_eq_div_pow]
  norm_num

theorem byte_lo (n : Nat) : ((Fin.ofNat (n &&& 0xFF) : Byte)).val = n % 256 := by
  have h : (0xFF : Nat) = 2 ^ 8 - 1 := by norm_num
  simp only [Fin.ofNat, h, Nat.and_pow_two_sub_one_eq_mod]
  norm_num

/-- Reading back a 16-bit header field from the two bytes written for it. -/
theorem word16_bytes (n : Nat) :
    word16 (Fin.ofNat ((n >>> 8) &&& 0xFF)) (Fin.ofNat (n &&& 0xFF)) = n % 65536 := by
  rw [word16_eq, byte_hi, byte_lo]; omega

theorem frame_cons (tid : Nat) (p : List Byte) :
    frame tid p =
      Fin.ofNat (((tid % 65536) >>> 8) &&& 0xFF) :: Fin.ofNat ((tid % 65536) &&& 0xFF) ::
      Fin.ofNat (((0 : Nat) >>> 8) &&& 0xFF) :: Fin.ofNat ((0 : Nat) &&& 0xFF) ::
      Fin.ofNat (((p.length % 65536) >>> 8) &&& 0xFF) ::
      Fin.ofNat ((p.length % 65536) &&& 0xFF) :: p := rfl

theorem frame_length (tid : Nat) (p : List Byte) : (frame tid p).length = 6 + p.length := by
  rw [frame_cons]; simp; omega

/-- The loop body on a buffer that starts with a frame whose payload is shorter than 256
bytes and is followed by at least one more byte (of payload or of the rest). -/
theorem onDataStep_frame (c : ModbusClientTCPAsyncOne) (tid : Nat) (p rest : List Byte)
    (hp : p.length < 256) (hne : 0 < p.length + rest.length) :
    onDataStep c (frame tid p ++ rest) =
      ({ c with _response := ModbusMessage.payload p, _isResponseReady := true }, rest) := by
  have hlen : (frame tid p ++ rest).length = 6 + p.length + rest.length := by
    rw [List.length_append, frame_length]
  have hml : word16 ((frame tid p ++ rest).getD 4 0) ((frame tid p ++ rest).getD 5 0)
      = p.length := by
    rw [frame_cons]
    simp only [List.cons_append, List.getD_cons_succ, List.getD_cons_zero]
    rw [word16_bytes]; omega
  have hpid : word16 ((frame tid p ++ rest).getD 2 0) ((frame tid p ++ rest).getD 3 0) = 0 := by
    rw [frame_cons]
    simp only [List.cons_append, List.getD_cons_succ, List.getD_cons_zero]
    rw [word16_bytes]
  unfold onDataStep
  rw [if_pos (by omega)]
  simp only [hml, hpid]
  rw [if_pos ⟨trivial, by omega, hp⟩]
  have hd : List.drop 6 (frame tid p ++ rest) = p ++ rest := by
    rw [frame_cons]; rfl
  have hd2 : List.drop (6 + p.length) (frame tid p ++ rest) = rest := by
    rw [← List.drop_drop, hd]; simp
  rw [hd, hd2]
  simp [ModbusMessage.assign]

namespace ModbusClientTCPAsyncOne

theorem onDataLoop_nil (fuel : Nat) (c : ModbusClientTCPAsyncOne) :
    onDataLoop fuel c [] = some (c, []) := by
  cases fuel <;> simp [onDataLoop]

theorem onDataLoop_succ (fuel : Nat) (c : ModbusClientTCPAsyncOne) (data : List Byte)
    (h : data ≠ []) :
    onDataLoop (fuel + 1) c data = onDataLoop fuel (onDataStep c data).1 (onDataStep c data).2 := by
  have : data.length ≠ 0 := by simpa using h
  simp [onDataLoop, this]

theorem onDataLoop_zero (c : ModbusClientTCPAsyncOne) (data : List Byte) (h : data ≠ []) :
    onDataLoop 0 c data = none := by
  have : data.length ≠ 0 := by simpa using h
  simp [onDataLoop, this]

/-- A loop body that changes nothing on a non-empty buffer is repeated for ever. -/
theorem onDataLoop_stuck (c : ModbusClientTCPAsyncOne) (data : List Byte) (h : data ≠ [])
    (hs : onDataStep c data = (c, data)) (fuel : Nat) : onDataLoop fuel c data = none := by
  have hl : data.length ≠ 0 := by simpa using h
  induction fuel with
  | zero => simp [onDataLoop, hl]
  | succ n ih => rw [onDataLoop_succ n c data h, hs]; exact ih

theorem _onData_stuck (c : ModbusClientTCPAsyncOne) (data : List Byte) (h : data ≠ [])
    (hs : ∀ c1 : ModbusClientTCPAsyncOne, onDataStep c1 data = (c1, data)) (fuel now : Nat) :
    _onData fuel now c data = none := by
  unfold _onData
  rw [onDataLoop_stuck _ data h (hs _) fuel]

theorem onDataEmits_stuck (c : ModbusClientTCPAsyncOne) (data : List Byte)
    (hs : onDataStep c data = (c, data)) (n : Nat) : onDataEmits n c data = [] := by
  induction n with
  | zero => rfl
  | succ n ih =>
    unfold onDataEmits
    rw [hs]
    simp [ih]

/-- The loop body does nothing when at most six bytes remain. -/
theorem onDataStep_short (c : ModbusClientTCPAsyncOne) (data : List Byte)
    (h : data.length ≤ 6) : onDataStep c data = (c, data) := by
  unfold onDataStep
  rw [if_neg (by omega)]

/-- The method `_send` touches neither the stored response nor its ready flag. -/
theorem _send_response (now : Nat) (c : ModbusClientTCPAsyncOne) :
    (_send now c).2._response = c._response ∧
    (_send now c).2._isResponseReady = c._isResponseReady := by
  unfold _send
  simp only
  split
  · exact ⟨rfl, rfl⟩
  · split
    · exact ⟨rfl, rfl⟩
    · split <;> exact ⟨rfl, rfl⟩

/-- An execution of the loop body either changes nothing or consumes at least six bytes. -/
theorem onDataStep_cases (c : ModbusClientTCPAsyncOne) (data : List Byte) :
    onDataStep c data = (c, data) ∨ (onDataStep c data).2.length + 6 ≤ data.length := by
  unfold onDataStep
  split
  · simp only
    split
    · rename_i h1 h2
      right
      rw [List.length_drop]
      omega
    · left; rfl
  · left; rfl

/-- More fuel does not change the result of a loop that has returned. -/
theorem onDataLoop_mono (k : Nat) (fuel : Nat) :
    ∀ (c : ModbusClientTCPAsyncOne) (data : List Byte) (r : ModbusClientTCPAsyncOne × List Byte),
      onDataLoop fuel c data = some r → onDataLoop (fuel + k) c data = some r := by
  induction fuel with
  | zero =>
    intro c data r h
    cases data with
    | nil => rw [onDataLoop_nil] at h ⊢; exact h
    | cons b bs => rw [onDataLoop_zero _ _ (List.cons_ne_nil _ _)] at h; cases h
  | succ n ih =>
    intro c data r h
    cases data with
    | nil => rw [onDataLoop_nil] at h ⊢; exact h
    | cons b bs =>
      rw [onDataLoop_succ _ _ _ (List.cons_ne_nil _ _)] at h
      rw [Nat.add_right_comm, onDataLoop_succ _ _ _ (List.cons_ne_nil _ _)]
      exact ih _ _ _ h

/-- Fuel equal to the number of delivered bytes is enough: if the loop returns at all, it
returns with that much fuel. -/
theorem onDataLoop_adequate (fuel : Nat) :
    ∀ (c : ModbusClientTCPAsyncOne) (data : List Byte) (r : ModbusClientTCPAsyncOne × List Byte),
      onDataLoop fuel c data = some r → onDataLoop data.length c data = some r := by
  induction fuel with
  | zero =>
    intro c data r h
    cases data with
    | nil => exact h
    | cons b bs => rw [onDataLoop_zero _ _ (List.cons_ne_nil _ _)] at h; cases h
  | succ n ih =>
    intro c data r h
    cases data with
    | nil => rw [onDataLoop_nil] at h ⊢; exact h
    | cons b bs =>
      have hne : b :: bs ≠ [] := List.cons_ne_nil _ _
      rw [onDataLoop_succ _ _ _ hne] at h
      rcases onDataStep_cases c (b :: bs) with hs | hs
      · rw [hs, onDataLoop_stuck c _ hne hs n] at h
        cases h
      · have h1 := ih _ _ _ h
        have h2 := onDataLoop_mono (bs.length - (onDataStep c (b :: bs)).2.length) _ _ _ _ h1
        have hl : (b :: bs).length = bs.length + 1 := rfl
        rw [hl] at hs ⊢
        rw [onDataLoop_succ _ _ _ hne]
        have e : (onDataStep c (b :: bs)).2.length +
            (bs.length - (onDataStep c (b :: bs)).2.length) = bs.length := by omega
        rw [e] at h2
        exact h2

/-- The fuel that `World.dispatch` gives to `_onData` is enough. -/
theorem _onData_adequate (fuel now : Nat) (c c1 : ModbusClientTCPAsyncOne) (data : List Byte)
    (h : _onData fuel now c data = some c1) : _onData data.length now c data = some c1 := by
  unfold _onData at h ⊢
  cases hl : onDataLoop fuel { c with MTA_lastActivity := now } data with
  | none => rw [hl] at h; cases h
  | some r =>
    rw [hl] at h
    rw [onDataLoop_adequate fuel _ _ r hl]
    exact h

end ModbusClientTCPAsyncOne

theorem onDataStep_frame_long (c : ModbusClientTCPAsyncOne) (tid : Nat) (p rest : List Byte)
    (hp : 256 ≤ p.length) (hp2 : p.length < 65536) :
    onDataStep c (frame tid p ++ rest) = (c, frame tid p ++ rest) := by
  have hml : word16 ((frame tid p ++ rest).getD 4 0) ((frame tid p ++ rest).getD 5 0)
      = p.length := by
    rw [frame_cons]
    simp only [List.cons_append, List.getD_cons_succ, List.getD_cons_zero]
    rw [word16_bytes]; omega
  unfold onDataStep
  split
  · simp only [hml]
    rw [if_neg (by omega)]
  · rfl

/-- The whole callback on a buffer that starts with a frame (payload shorter than 256 bytes,
followed by at least one more byte): the first execution of the loop body stores the payload
and marks it ready, and the loop goes on with the bytes after the frame. -/
theorem onDataLoop_frame (fuel : Nat) (c : ModbusClientTCPAsyncOne) (tid : Nat)
    (p rest : List Byte) (hp : p.length < 256) (hne : 0 < p.length + rest.length) :
    onDataLoop (fuel + 1) c (frame tid p ++ rest) =
      onDataLoop fuel { c with _response := ModbusMessage.payload p, _isResponseReady := true }
        rest := by
  have hnil : frame tid p ++ rest ≠ [] := by rw [frame_cons]; simp
  rw [onDataLoop_succ fuel c _ hnil, onDataStep_frame c tid p rest hp hne]

theorem onDataEmits_nil (n : Nat) (c : ModbusClientTCPAsyncOne) : onDataEmits n c [] = [] := by
  cases n <;> simp [onDataEmits]

/-- The first execution of the loop body on a buffer that starts with an acceptable frame
stores the payload of that frame. -/
theorem onDataEmits_frame (n : Nat) (c : ModbusClientTCPAsyncOne) (tid : Nat)
    (p rest : List Byte) (hp : p.length < 256) (hne : 0 < p.length + rest.length) :
    onDataEmits (n + 1) c (frame tid p ++ rest) =
      ModbusMessage.payload p ::
        onDataEmits n { c with _response := ModbusMessage.payload p, _isResponseReady := true }
          rest := by
  have hlen : (frame tid p ++ rest).length = 6 + p.length + rest.length := by
    rw [List.length_append, frame_length]
  rw [onDataEmits, onDataStep_frame c tid p rest hp hne]
  dsimp only
  rw [if_neg (by omega), if_pos (by omega)]

theorem longPayload_length : longPayload.length = 256 := List.length_replicate _ _

theorem four_pos (rest : List Byte) : 0 < [1, 2, 3, (4 : Byte)].length + rest.length :=
  Nat.lt_of_lt_of_le (by decide) (Nat.le_add_right _ _)

/-- The whole callback on a single frame with 1 to 255 payload bytes. -/
theorem _onData_frame (c : ModbusClientTCPAsyncOne) (now fuel tid : Nat)
    (payload : List Byte) (h1 : 0 < payload.length) (h2 : payload.length < 256) :
    ∃ c1, _onData (fuel + 1) now c (frame tid payload) = some c1 ∧
      c1._isResponseReady = true ∧ c1._response = ModbusMessage.payload payload := by
  have hl := onDataLoop_frame fuel { c with MTA_lastActivity := now } tid payload []
    h2 (by simpa using h1)
  rw [List.append_nil, onDataLoop_nil] at hl
  unfold _onData
  rw [hl]
  exact ⟨_, rfl, (_send_response now _).2, (_send_response now _).1⟩

/-- C1 (as amended): for every transaction ID and every payload of 1 to 255 bytes, delivering
the frame (six-byte big-endian header with protocolID 0 and the payload length, then the
payload) in one delivery makes the decode loop consume the whole buffer in one execution of
its body and makes `_onData` return with the response marked ready and the stored response
equal to the payload, byte for byte. -/
theorem onData_roundtrip (c : ModbusClientTCPAsyncOne) (now fuel tid : Nat)
    (payload : List Byte) (h1 : 0 < payload.length) (h2 : payload.length < 256) :
    onDataLoop (fuel + 1) c (frame tid payload) =
      some ({ c with _response := ModbusMessage.payload payload, _isResponseReady := true },
        []) ∧
    ∃ c1, _onData (fuel + 1) now c (frame tid payload) = some c1 ∧
      c1._isResponseReady = true ∧ c1._response = ModbusMessage.payload payload := by
  have hl := fun c0 : ModbusClientTCPAsyncOne =>
    onDataLoop_frame fuel c0 tid payload [] h2 (by simpa using h1)
  simp only [List.append_nil, onDataLoop_nil] at hl
  refine ⟨hl c, ?_⟩
  unfold _onData
  rw [hl]
  exact ⟨_, rfl, (_send_response now _).2, (_send_response now _).1⟩

/-- C1, witness: the round trip of the payload 1, 2, 3, 4 under transaction ID 1. -/
theorem onData_roundtrip_witness :
    onDataLoop 1 (connectedClient 0) (frame 1 [1, 2, 3, 4]) =
      some ({ connectedClient 0 with
                _response := ModbusMessage.payload [1, 2, 3, 4], _isResponseReady := true },
        []) ∧
    ∃ c1, _onData 1 0 (connectedClient 0) (frame 1 [1, 2, 3, 4]) = some c1 ∧
      c1._isResponseReady = true ∧ c1._response = ModbusMessage.payload [1, 2, 3, 4] :=
  onData_roundtrip (connectedClient 0) 0 0 1 [1, 2, 3, 4] (by decide) (by decide)

/-- C1, counterexample: the round trip fails for the empty payload (the frame is the six
header bytes 0, 1, 0, 0, 0, 0) and for the payload `longPayload` of 256 zero bytes (header
0, 1, 0, 0, 1, 0): whatever the fuel, `_onData` does not return, so no response is ever
marked ready. -/
theorem onData_roundtrip_counterexample :
    (¬ ∃ fuel c1, _onData fuel 0 (connectedClient 0) (frame 1 []) = some c1 ∧
        c1._isResponseReady = true ∧ c1._response = ModbusMessage.payload []) ∧
    (¬ ∃ fuel c1,
        _onData fuel 0 (connectedClient 0) (frame 1 longPayload) = some c1 ∧
        c1._isResponseReady = true ∧
        c1._response = ModbusMessage.payload longPayload) := by
  constructor
  · rintro ⟨fuel, c1, h, -⟩
    rw [_onData_stuck _ _ (by decide) (fun c1 => onDataStep_short c1 _ (by decide))] at h
    cases h
  · rintro ⟨fuel, c1, h, -⟩
    have hs : ∀ c1 : ModbusClientTCPAsyncOne,
        onDataStep c1 (frame 1 longPayload) =
          (c1, frame 1 longPayload) := by
      intro c1
      have := onDataStep_frame_long c1 1 longPayload [] (by rw [longPayload_length])
        (by rw [longPayload_length]; decide)
      rwa [List.append_nil] at this
    rw [_onData_stuck _ _ (by rw [frame_cons]; exact List.cons_ne_nil _ _) hs] at h
    cases h

/-- C2: the buffer 0, 1, 0, 1, 0, 1, 7 (transactionID 1, protocolID 1, length 1, one payload
byte) is never left behind: the loop body changes neither the client nor the parse position,
and `_onData` does not return, whatever the fuel. -/
theorem onData_protocolID_one_never_returns (c : ModbusClientTCPAsyncOne) (fuel now : Nat) :
    onDataStep c [0, 1, 0, 1, 0, 1, 7] = (c, [0, 1, 0, 1, 0, 1, 7]) ∧
    _onData fuel now c [0, 1, 0, 1, 0, 1, 7] = none := by
  have hs : ∀ c1 : ModbusClientTCPAsyncOne,
      onDataStep c1 [0, 1, 0, 1, 0, 1, 7] = (c1, [0, 1, 0, 1, 0, 1, 7]) := fun _ => rfl
  exact ⟨hs c, _onData_stuck c _ (by decide) hs fuel now⟩

/-- C3 (as amended): for every buffer that is the concatenation of two frames with protocolID
0 whose payloads are shorter than 256 bytes, the second one not empty, a single call of the
decoder stores both payloads, that of the first frame before that of the second, and returns
with the second payload stored and marked ready. -/
theorem onData_two_frames (c : ModbusClientTCPAsyncOne) (now fuel tid1 tid2 : Nat)
    (p1 p2 : List Byte) (h1 : p1.length < 256) (h2 : 0 < p2.length) (h3 : p2.length < 256) :
    onDataEmits (fuel + 2) c (frame tid1 p1 ++ frame tid2 p2) =
      [ModbusMessage.payload p1, ModbusMessage.payload p2] ∧
    ∃ c1, _onData (fuel + 2) now c (frame tid1 p1 ++ frame tid2 p2) = some c1 ∧
      c1._isResponseReady = true ∧ c1._response = ModbusMessage.payload p2 := by
  have hf2 : (frame tid2 p2).length = 6 + p2.length := frame_length tid2 p2
  constructor
  · have e2 := fun c0 : ModbusClientTCPAsyncOne =>
      onDataEmits_frame fuel c0 tid2 p2 [] h3 (by simpa using h2)
    simp only [List.append_nil, onDataEmits_nil] at e2
    rw [onDataEmits_frame (fuel + 1) c tid1 p1 (frame tid2 p2) h1 (by omega), e2]
  · have hl := onDataLoop_frame (fuel + 1) { c with MTA_lastActivity := now } tid1 p1
      (frame tid2 p2) h1 (by omega)
    have hl2 := fun c0 : ModbusClientTCPAsyncOne =>
      onDataLoop_frame fuel c0 tid2 p2 [] h3 (by simpa using h2)
    simp only [List.append_nil, onDataLoop_nil] at hl2
    rw [hl2] at hl
    unfold _onData
    rw [hl]
    exact ⟨_, rfl, (_send_response now _).2, (_send_response now _).1⟩

/-- C3, witness: transaction IDs 1 and 2, each with four payload bytes, 20 bytes in all. -/
theorem onData_two_frames_witness :
    onDataEmits 2 (connectedClient 0) (frame 1 [1, 2, 3, 4] ++ frame 2 [5, 6, 7, 8]) =
      [ModbusMessage.payload [1, 2, 3, 4], ModbusMessage.payload [5, 6, 7, 8]] ∧
    ∃ c1, _onData 2 0 (connectedClient 0) (frame 1 [1, 2, 3, 4] ++ frame 2 [5, 6, 7, 8])
        = some c1 ∧
      c1._isResponseReady = true ∧ c1._response = ModbusMessage.payload [5, 6, 7, 8] :=
  onData_two_frames (connectedClient 0) 0 0 1 2 [1, 2, 3, 4] [5, 6, 7, 8]
    (by decide) (by decide) (by decide)

/-- C3, counterexample: when the second of two frames has an empty payload (10 + 6 bytes:
0, 1, 0, 0, 0, 4, 1, 2, 3, 4 then 0, 2, 0, 0, 0, 0), or the payload `longPayload` of 256
bytes, the call never stores the second payload, however long the loop runs, and with the
empty second payload it does not return. -/
theorem onData_two_frames_counterexample :
    (¬ ∃ n, onDataEmits n (connectedClient 0) (frame 1 [1, 2, 3, 4] ++ frame 2 []) =
        [ModbusMessage.payload [1, 2, 3, 4], ModbusMessage.payload []]) ∧
    (¬ ∃ fuel c1,
        _onData fuel 0 (connectedClient 0) (frame 1 [1, 2, 3, 4] ++ frame 2 []) = some c1) ∧
    (¬ ∃ n, onDataEmits n (connectedClient 0)
        (frame 1 [1, 2, 3, 4] ++ frame 2 longPayload) =
        [ModbusMessage.payload [1, 2, 3, 4], ModbusMessage.payload longPayload]) := by
  refine ⟨?_, ?_, ?_⟩
  · rintro ⟨n, h⟩
    cases n with
    | zero => exact absurd h (by decide)
    | succ n =>
      rw [onDataEmits_frame n _ 1 [1, 2, 3, 4] (frame 2 []) (by decide) (by decide),
        onDataEmits_stuck _ _ (onDataStep_short _ _ (by decide))] at h
      exact absurd h (by decide)
  · rintro ⟨fuel, c1, h⟩
    unfold _onData at h
    cases fuel with
    | zero =>
      rw [onDataLoop_zero _ _ (by decide)] at h
      cases h
    | succ n =>
      rw [onDataLoop_frame n _ 1 [1, 2, 3, 4] (frame 2 []) (by decide) (by decide),
        onDataLoop_stuck _ _ (by decide) (onDataStep_short _ _ (by decide))] at h
      cases h
  · rintro ⟨n, h⟩
    have hlong := fun c0 : ModbusClientTCPAsyncOne =>
      onDataStep_frame_long c0 2 longPayload [] (by rw [longPayload_length])
        (by rw [longPayload_length]; decide)
    simp only [List.append_nil] at hlong
    cases n with
    | zero => exact absurd (congrArg List.length h) (by decide)
    | succ n =>
      rw [onDataEmits_frame n _ 1 [1, 2, 3, 4] _ (by decide) (four_pos _),
        onDataEmits_stuck _ _ (hlong _)] at h
      have h2 := congrArg List.length h
      exact absurd h2 (by decide)

/-- C6: whenever an execution of the loop body accepts a frame, the header at the parse
position has protocolID 0, at least 6 + length bytes remain, and the stored response is
exactly the `length` bytes after the six header bytes. -/
theorem onDataStep_accept_sound (c : ModbusClientTCPAsyncOne) (data : List Byte)
    (h : onDataStep c data ≠ (c, data)) :
    word16 (data.getD 2 0) (data.getD 3 0) = 0 ∧
    6 + word16 (data.getD 4 0) (data.getD 5 0) ≤ data.length ∧
    (onDataStep c data).1._isResponseReady = true ∧
    (onDataStep c data).1._response =
      ModbusMessage.payload ((data.drop 6).take (word16 (data.getD 4 0) (data.getD 5 0))) ∧
    ((data.drop 6).take (word16 (data.getD 4 0) (data.getD 5 0))).length =
      word16 (data.getD 4 0) (data.getD 5 0) ∧
    (onDataStep c data).2 = data.drop (6 + word16 (data.getD 4 0) (data.getD 5 0)) := by
  by_cases h1 : data.length > 6
  · by_cases h2 : word16 (data.getD 2 0) (data.getD 3 0) = 0 ∧
        data.length ≥ word16 (data.getD 4 0) (data.getD 5 0) + 6 ∧
        word16 (data.getD 4 0) (data.getD 5 0) < 256
    · have hs : onDataStep c data =
          ({ c with
              _response := ModbusMessage.payload
                (List.take (word16 (data.getD 4 0) (data.getD 5 0)) (List.drop 6 data)),
              _isResponseReady := true },
            data.drop (6 + word16 (data.getD 4 0) (data.getD 5 0))) := by
        unfold onDataStep
        rw [if_pos h1]
        simp only
        rw [if_pos h2]
        rfl
      rw [hs]
      refine ⟨h2.1, by omega, rfl, rfl, ?_, rfl⟩
      rw [List.length_take, List.length_drop]
      omega
    · exact absurd (by unfold onDataStep; rw [if_pos h1]; simp only; rw [if_neg h2]) h
  · exact absurd (by unfold onDataStep; rw [if_neg h1]) h

/-- C6, witness: the loop body accepts the frame 0, 1, 0, 0, 0, 2, 8, 9. -/
theorem onDataStep_accept_sound_witness :
    onDataStep (connectedClient 0) [0, 1, 0, 0, 0, 2, 8, 9] ≠
      (connectedClient 0, [0, 1, 0, 0, 0, 2, 8, 9]) ∧
    (onDataStep (connectedClient 0) [0, 1, 0, 0, 0, 2, 8, 9]).1._response =
      ModbusMessage.payload
        (([0, 1, 0, 0, 0, 2, 8, 9] : List Byte).drop 6 |>.take (word16 0 2)) :=
  ⟨by decide,
   (onDataStep_accept_sound (connectedClient 0) [0, 1, 0, 0, 0, 2, 8, 9] (by decide)).2.2.2.1⟩

/-- C8: on the delivery 0, 1, 0 (three bytes, fewer than a header) the loop body changes
nothing, and because the loop condition `length > 0` still holds the callback `_onData` does
not return, whatever the fuel. -/
theorem onData_short_never_returns (c : ModbusClientTCPAsyncOne) (fuel now : Nat) :
    onDataStep c [0, 1, 0] = (c, [0, 1, 0]) ∧ _onData fuel now c [0, 1, 0] = none :=
  ⟨rfl, _onData_stuck c _ (by decide) (fun c1 => onDataStep_short c1 _ (by decide)) fuel now⟩

/-- On every delivery of one to six bytes the callback `_onData` does not return. -/
theorem _onData_short (c : ModbusClientTCPAsyncOne) (data : List Byte) (fuel now : Nat)
    (h0 : data ≠ []) (h : data.length ≤ 6) : _onData fuel now c data = none :=
  _onData_stuck c data h0 (fun c1 => onDataStep_short c1 data h) fuel now

/-- The loop body on the first part of a split frame: nothing is accepted. -/
theorem onDataStep_firstPart (c : ModbusClientTCPAsyncOne) (tid : Nat) (p : List Byte) (k : Nat)
    (hk : k < p.length) (hp : p.length < 65536) :
    onDataStep c ((frame tid p).take (6 + k)) = (c, (frame tid p).take (6 + k)) := by
  have hlen : ((frame tid p).take (6 + k)).length = 6 + k := by
    rw [List.length_take, frame_length]; omega
  have hml : word16 (((frame tid p).take (6 + k)).getD 4 0)
      (((frame tid p).take (6 + k)).getD 5 0) = p.length := by
    rw [frame_cons, Nat.add_comm]
    simp only [List.take_succ_cons, List.getD_cons_succ, List.getD_cons_zero]
    rw [word16_bytes]; omega
  unfold onDataStep
  split
  · simp only [hml]
    rw [if_neg (by omega)]
  · rfl

/-! ## The wait loops and the notifications -/

namespace World

theorem _onPoll_response (now : Nat) (c : ModbusClientTCPAsyncOne) :
    (_onPoll now c)._isResponseReady = c._isResponseReady ∧
    (_onPoll now c)._response = c._response := by
  unfold _onPoll
  split <;> exact ⟨rfl, rfl⟩

/-- A silent notification is handled by a callback that returns and leaves the clock, the
stored response and the ready flag as they were. -/
theorem dispatch_silent (w : World) (e : Event) (h : e.silent = true) :
    ∃ w1, w.dispatch e = some w1 ∧ w1.clock = w.clock ∧
      w1.client._isResponseReady = w.client._isResponseReady ∧
      w1.client._response = w.client._response := by
  cases e with
  | data bytes => cases h
  | disconnect => cases h
  | connect => exact ⟨_, rfl, rfl, rfl, rfl⟩
  | error => exact ⟨_, rfl, rfl, rfl, rfl⟩
  | ack => exact ⟨_, rfl, rfl, rfl, rfl⟩
  | poll =>
    exact ⟨_, rfl, rfl, (_onPoll_response _ _).1, (_onPoll_response _ _).2⟩
  | status s a b sp => exact ⟨_, rfl, rfl, rfl, rfl⟩

theorem deliver_silent (es : List Event) :
    ∀ w : World, (∀ e ∈ es, e.silent = true) →
      ∃ w1, w.deliver es = some w1 ∧ w1.clock = w.clock ∧
        w1.client._isResponseReady = w.client._isResponseReady ∧
        w1.client._response = w.client._response := by
  induction es with
  | nil => intro w _; exact ⟨w, rfl, rfl, rfl, rfl⟩
  | cons e es ih =>
    intro w h
    obtain ⟨w1, h1, hc, hr, hp⟩ := dispatch_silent w e (h e (List.mem_cons_self _ _))
    obtain ⟨w2, h2, hc2, hr2, hp2⟩ := ih w1 (fun x hx => h x (List.mem_cons_of_mem _ hx))
    refine ⟨w2, ?_, hc2.trans hc, hr2.trans hr, hp2.trans hp⟩
    rw [deliver, h1]
    exact h2

theorem deliver_append (es fs : List Event) :
    ∀ w w1 : World, w.deliver es = some w1 → w.deliver (es ++ fs) = w1.deliver fs := by
  induction es with
  | nil => intro w w1 h; cases h; rfl
  | cons e es ih =>
    intro w w1 h
    rw [deliver] at h
    rw [List.cons_append, deliver]
    cases hd : w.dispatch e with
    | none => rw [hd] at h; cases h
    | some w2 =>
      rw [hd] at h
      exact ih w2 w1 h

/-- A tick in which `onDisconnect` is delivered among silent notifications ends with the
connection-failure response stored and marked ready. -/
theorem delay_disconnect (w : World) (dt : Nat) (pre post : List Event)
    (hpre : ∀ e ∈ pre, e.silent = true) (hpost : ∀ e ∈ post, e.silent = true) :
    ∃ w1, w.delay ⟨dt, pre ++ Event.disconnect :: post⟩ = some w1 ∧
      w1.client._isResponseReady = true ∧
      w1.client._response = ModbusMessage.error 0 0 Error.IP_CONNECTION_FAILED := by
  obtain ⟨w1, h1, -, -, -⟩ := deliver_silent pre { w with clock := w.clock + dt } hpre
  obtain ⟨w2, h2, -, hr, hp⟩ :=
    deliver_silent post { w1 with client := w1.client._onDisconnect } hpost
  refine ⟨w2, ?_, hr, hp⟩
  unfold delay
  rw [deliver_append pre _ _ w1 h1, deliver]
  exact h2

/-- A tick of silent notifications: the delay returns, the clock has advanced by the tick and
the ready flag is as before. -/
theorem delay_silent (w : World) (t : Tick) (h : ∀ e ∈ t.events, e.silent = true) :
    ∃ w1, w.delay t = some w1 ∧ w1.clock = w.clock + t.elapsed ∧
      w1.client._isResponseReady = w.client._isResponseReady ∧
      w1.client._response = w.client._response :=
  deliver_silent t.events { w with clock := w.clock + t.elapsed } h

theorem awaitResponse_ready (msg : ModbusMessage) (d : Nat) (sched : List Tick) (w : World)
    (h : w.client._isResponseReady = true) :
    awaitResponse msg d sched w = some (w.client._response,
      { w with client := { w.client with _isRequestReady := false,
                                         _isResponseReady := false } }) := by
  cases sched <;> simp [awaitResponse, h]

theorem awaitResponse_tick (msg : ModbusMessage) (d : Nat) (t : Tick) (rest : List Tick)
    (w w1 : World) (h : w.client._isResponseReady = false) (ht : w.millis < d)
    (hd : w.delay t = some w1) :
    awaitResponse msg d (t :: rest) w = awaitResponse msg d rest w1 := by
  rw [awaitResponse]
  simp [h, hd, Nat.not_le.mpr ht]

/-- While only silent notifications arrive and every check of the loop reads a clock below
the deadline, the wait loop of `syncRequestM` keeps waiting. -/
theorem awaitResponse_quiet (msg : ModbusMessage) (d : Nat) (rest : List Tick)
    (quiet : List Tick) :
    ∀ w : World, w.client._isResponseReady = false →
      (∀ t ∈ quiet, ∀ e ∈ t.events, e.silent = true) →
      (∀ k, k < quiet.length →
        (w.clock + ((quiet.take k).map Tick.elapsed).sum) % 4294967296 < d) →
      ∃ w1, awaitResponse msg d (quiet ++ rest) w = awaitResponse msg d rest w1 ∧
        w1.clock = w.clock + (quiet.map Tick.elapsed).sum ∧
        w1.client._isResponseReady = false := by
  induction quiet with
  | nil => intro w h _ _; exact ⟨w, rfl, by simp, h⟩
  | cons t quiet ih =>
    intro w hr hq ht
    obtain ⟨w1, h1, hc, hr1, -⟩ := delay_silent w t (hq t (List.mem_cons_self _ _))
    have ht0 : w.millis < d := by
      have := ht 0 (by simp)
      simpa [millis] using this
    obtain ⟨w2, h2, hc2, hr2⟩ := ih w1 (hr1.trans hr)
      (fun x hx => hq x (List.mem_cons_of_mem _ hx))
      (fun k hk => by
        have := ht (k + 1) (by simpa using hk)
        simpa [hc, Nat.add_assoc] using this)
    refine ⟨w2, ?_, ?_, hr2⟩
    · rw [List.cons_append, awaitResponse_tick msg d t _ w w1 hr ht0 h1]
      exact h2
    · rw [hc2, hc]; simp [Nat.add_assoc]

theorem _send_timeout (now : Nat) (c : ModbusClientTCPAsyncOne) :
    (_send now c).2.MTA_timeout = c.MTA_timeout := by
  unfold _send
  simp only
  split
  · rfl
  · split
    · rfl
    · split <;> rfl

/-- The start of `syncRequestM` on a non-empty message for which `connect()` returns with the
transport connected: `_send()` is called and the wait loop starts with the deadline
`millis() + MTA_timeout`, the clock and the ready flag being those left by `connect()`. -/
theorem syncRequestM_sent (msg : ModbusMessage) (sched sched1 : List Tick) (w w1 : World)
    (hmsg : msg.isEmpty = false)
    (hconn : connect sched (w.accept msg) = some (w1, sched1))
    (hstate : w1.client._state = ClientState.CONNECTED) :
    ∃ w2, syncRequestM msg sched w =
        awaitResponse msg ((w1.millis + w1.client.MTA_timeout) % 4294967296) sched1 w2 ∧
      w2.clock = w1.clock ∧ w2.client._isResponseReady = w1.client._isResponseReady := by
  refine ⟨{ w1 with client := (_send w1.millis w1.client).2 }, ?_, rfl, ?_⟩
  · unfold syncRequestM
    rw [hmsg]
    simp only [Bool.false_eq_true, if_false, hconn, hstate, ne_eq, not_true_eq_false]
    simp only [millis, _send_timeout]
  · exact (_send_response _ _).2

/-- On a transport that is already connected `connect()` does nothing. -/
theorem connect_connected (sched : List Tick) (w : World)
    (h : w.client._state = ClientState.CONNECTED) : connect sched w = some (w, sched) := by
  unfold connect
  rw [if_pos h]

/-- A tick in which a single frame with 1 to 255 payload bytes is delivered ends with that
payload stored and marked ready. -/
theorem delay_frame (w : World) (dt tid : Nat) (p : List Byte)
    (h1 : 0 < p.length) (h2 : p.length < 256) :
    ∃ w1, w.delay ⟨dt, [Event.data (frame tid p)]⟩ = some w1 ∧
      w1.client._isResponseReady = true ∧
      w1.client._response = ModbusMessage.payload p := by
  obtain ⟨c1, hc, hr, hp⟩ := _onData_frame w.client
    (World.millis { w with clock := w.clock + dt }) (5 + p.length) tid p h1 h2
  have hlen : (frame tid p).length = 5 + p.length + 1 := by rw [frame_length]; omega
  refine ⟨{ client := c1, clock := w.clock + dt }, ?_, hr, hp⟩
  unfold delay
  simp only [deliver, dispatch]
  rw [hlen, hc]

end World

open World

/-- The disconnect path while the deadline is ahead: for every non-empty request for which
`connect()` returns with the transport connected and no response ready, if `_onDisconnect` is
notified (possibly after `_onError` and other notifications that carry no data) before any
frame is received and while every check of the wait loop still reads a clock below the
deadline that the code computed, `syncRequestM` returns the error response of kind
IP_CONNECTION_FAILED, not TIMEOUT. The hypothesis on the checks fails from the first check on
when `millis() + MTA_timeout` wraps past 2^32. -/
theorem syncRequestM_disconnect (msg : ModbusMessage) (w w1 : World)
    (sched quiet : List Tick) (dt : Nat) (pre post : List Event) (rest : List Tick)
    (hmsg : msg.isEmpty = false)
    (hconn : connect sched (w.accept msg) =
      some (w1, quiet ++ ⟨dt, pre ++ Event.disconnect :: post⟩ :: rest))
    (hstate : w1.client._state = ClientState.CONNECTED)
    (hnot : w1.client._isResponseReady = false)
    (hquiet : ∀ t ∈ quiet, ∀ e ∈ t.events, e.silent = true)
    (hpre : ∀ e ∈ pre, e.silent = true) (hpost : ∀ e ∈ post, e.silent = true)
    (htime : ∀ k, k ≤ quiet.length →
      (w1.clock + ((quiet.take k).map Tick.elapsed).sum) % 4294967296 <
        (w1.millis + w1.client.MTA_timeout) % 4294967296) :
    ∃ w3, syncRequestM msg sched w =
        some (ModbusMessage.error 0 0 Error.IP_CONNECTION_FAILED, w3) ∧
      ModbusMessage.errorKind (ModbusMessage.error 0 0 Error.IP_CONNECTION_FAILED) ≠
        some Error.TIMEOUT := by
  obtain ⟨w2, hs, hc2, hr2⟩ := syncRequestM_sent msg sched _ w w1 hmsg hconn hstate
  obtain ⟨w3, hq, hc3, hr3⟩ := awaitResponse_quiet msg
    ((w1.millis + w1.client.MTA_timeout) % 4294967296)
    (⟨dt, pre ++ Event.disconnect :: post⟩ :: rest) quiet w2 (hr2.trans hnot) hquiet
    (fun k hk => by rw [hc2]; exact htime k (Nat.le_of_lt hk))
  obtain ⟨w4, hd, hr4, hp4⟩ := delay_disconnect w3 dt pre post hpre hpost
  have ht3 : w3.millis < (w1.millis + w1.client.MTA_timeout) % 4294967296 := by
    have := htime quiet.length (Nat.le_refl _)
    rw [List.take_length] at this
    rw [millis, hc3, hc2]
    exact this
  rw [hs, hq, awaitResponse_tick msg _ _ rest w3 w4 hr3 ht3 hd,
    awaitResponse_ready msg _ rest w4 hr4, hp4]
  exact ⟨_, rfl, by decide⟩

/-- The disconnect path at clock 100 on a connected client with the default timeout: nothing
happens during the first delay, a transport error and the disconnect are notified during the
second. -/
theorem syncRequestM_disconnect_witness :
    ∃ w3, syncRequestM (ModbusMessage.payload [1, 3, 0, 0, 0, 1])
        ([⟨10, []⟩] ++ ⟨10, [Event.error] ++ Event.disconnect :: []⟩ :: [])
        ⟨connectedClient 0, 100⟩ =
        some (ModbusMessage.error 0 0 Error.IP_CONNECTION_FAILED, w3) ∧
      ModbusMessage.errorKind (ModbusMessage.error 0 0 Error.IP_CONNECTION_FAILED) ≠
        some Error.TIMEOUT :=
  syncRequestM_disconnect (ModbusMessage.payload [1, 3, 0, 0, 0, 1]) ⟨connectedClient 0, 100⟩
    (World.accept ⟨connectedClient 0, 100⟩ (ModbusMessage.payload [1, 3, 0, 0, 0, 1]))
    ([⟨10, []⟩] ++ ⟨10, [Event.error] ++ Event.disconnect :: []⟩ :: [])
    [⟨10, []⟩] 10 [Event.error] [] [] (by decide) (connect_connected _ _ (by decide))
    (by decide) (by decide) (by decide) (by decide) (by decide)
    (by
      intro k hk
      have hk1 : k ≤ 1 := hk
      interval_cases k <;> decide)

/-- C4 (as amended): for every outstanding request (`connect()` has returned with the
transport connected and no response ready, and the request has gone to `_send`) and every
frame with 1 to 255 payload bytes received in one delivery while the request waits, the
payload is stored, marked ready and returned by `syncRequestM` whatever transaction ID the
header of the frame carries, equal to the ID of the request or not: the decoder reads the
transaction ID and compares it with nothing. -/
theorem syncRequestM_any_transactionID (msg : ModbusMessage) (w w1 : World)
    (sched : List Tick) (dt tid : Nat) (p : List Byte) (rest : List Tick)
    (hmsg : msg.isEmpty = false)
    (hconn : connect sched (w.accept msg) =
      some (w1, ⟨dt, [Event.data (frame tid p)]⟩ :: rest))
    (hstate : w1.client._state = ClientState.CONNECTED)
    (hnot : w1.client._isResponseReady = false)
    (h1 : 0 < p.length) (h2 : p.length < 256)
    (htime : w1.millis < (w1.millis + w1.client.MTA_timeout) % 4294967296) :
    ∃ w3, syncRequestM msg sched w = some (ModbusMessage.payload p, w3) := by
  obtain ⟨w2, hs, hc2, hr2⟩ := syncRequestM_sent msg sched _ w w1 hmsg hconn hstate
  obtain ⟨w3, hd, hr3, hp3⟩ := delay_frame w2 dt tid p h1 h2
  have ht2 : w2.millis < (w1.millis + w1.client.MTA_timeout) % 4294967296 := by
    rw [millis, hc2]; exact htime
  rw [hs, awaitResponse_tick msg _ _ rest w2 w3 (hr2.trans hnot) ht2 hd,
    awaitResponse_ready msg _ rest w3 hr3, hp3]
  exact ⟨_, rfl⟩

/-- C4, witness: the request is sent with transaction ID 0 and the frame received carries
transaction ID 7. -/
theorem syncRequestM_any_transactionID_witness :
    ∃ w3, syncRequestM (ModbusMessage.payload [1, 3, 0, 0, 0, 1])
        (⟨10, [Event.data (frame 7 [9, 9])]⟩ :: []) ⟨connectedClient 0, 100⟩ =
      some (ModbusMessage.payload [9, 9], w3) :=
  syncRequestM_any_transactionID (ModbusMessage.payload [1, 3, 0, 0, 0, 1])
    ⟨connectedClient 0, 100⟩
    (World.accept ⟨connectedClient 0, 100⟩ (ModbusMessage.payload [1, 3, 0, 0, 0, 1]))
    (⟨10, [Event.data (frame 7 [9, 9])]⟩ :: []) 10 7 [9, 9] []
    (by decide) (connect_connected _ _ (by decide)) (by decide) (by decide) (by decide)
    (by decide) (by decide)

/-- C4, counterexample: the request is handed to the transport with transaction ID 0 (header
0, 0, 0, 0, 0, 6), the only frame received is 0, 7, 0, 0, 0, 2, 9, 9 with transaction ID 7, and
`syncRequestM` returns its payload 9, 9 as the response of the request. -/
theorem syncRequestM_transactionID_counterexample :
    (syncRequestM (ModbusMessage.payload [1, 3, 0, 0, 0, 1])
        [⟨10, [Event.data [0, 7, 0, 0, 0, 2, 9, 9]]⟩] ⟨connectedClient 0, 100⟩).map
      (fun r => (r.1, r.2.client.MTA_client.written)) =
      some (ModbusMessage.payload [9, 9], [0, 0, 0, 0, 0, 6, 1, 3, 0, 0, 0, 1]) ∧
    word16 0 7 ≠ word16 0 0 := by
  decide

/-! ## Encoding, partial deliveries and transaction IDs -/

/-- What a successful `_send` does: the request was ready, the transport connected and able to
send with room for the frame; the header and the request are handed over and the counter
advances by one. -/
theorem _send_true (now : Nat) (c : ModbusClientTCPAsyncOne) (h : (_send now c).1 = true) :
    c._isRequestReady = true ∧
    (c._request.size % 4294967296 + 6) % 4294967296 ≤ c.MTA_client.space ∧
    (_send now c).2.MTA_client.written =
      c.MTA_client.written ++
        ModbusTCPhead.toBytes
          { transactionID := c._transactionID % 65536, protocolID := 0,
            len := c._request.size % 65536 } ++
        c._request.data ∧
    (_send now c).2.MTA_client.sendCalls = c.MTA_client.sendCalls + 1 ∧
    (_send now c).2.MTA_client.connectCalls = c.MTA_client.connectCalls ∧
    (_send now c).2.MTA_client.closeCalls = c.MTA_client.closeCalls ∧
    (_send now c).2._transactionID = (c._transactionID + 1) % 4294967296 := by
  unfold _send at h ⊢
  simp only at h ⊢
  split at h
  · cases h
  · split at h
    · cases h
    · split at h
      · cases h
      · rename_i h1 h2 h3
        rw [if_neg h1, if_neg h2, if_neg h3]
        refine ⟨by simpa using h1, by omega, ?_, rfl, rfl, rfl, rfl⟩
        simp [AsyncClient.send, AsyncClient.add]

/-- C5: a successful `_send` appends to what the transport was handed exactly six header
bytes, whose values are (t >> 8) and t as bytes, 0, 0, (len >> 8) and len as bytes, where t is
the current transaction ID and len the number of bytes of the request, followed by the bytes
of the request unchanged, calls `send()` once and asks the transport for nothing else (no
connect, no close). -/
theorem send_encoding (now : Nat) (c : ModbusClientTCPAsyncOne) (h : (_send now c).1 = true) :
    ∃ head : List Byte,
      head.map Fin.val =
        [c._transactionID / 256 % 256, c._transactionID % 256, 0, 0,
          c._request.size / 256 % 256, c._request.size % 256] ∧
      (_send now c).2.MTA_client.written = c.MTA_client.written ++ head ++ c._request.data ∧
      (_send now c).2.MTA_client.sendCalls = c.MTA_client.sendCalls + 1 ∧
      (_send now c).2.MTA_client.connectCalls = c.MTA_client.connectCalls ∧
      (_send now c).2.MTA_client.closeCalls = c.MTA_client.closeCalls := by
  obtain ⟨-, -, hw, hs, hcon, hclo, -⟩ := _send_true now c h
  refine ⟨_, ?_, hw, hs, hcon, hclo⟩
  have e1 : c._transactionID % 65536 / 256 % 256 = c._transactionID / 256 % 256 := by omega
  have e2 : c._transactionID % 65536 % 256 = c._transactionID % 256 := by omega
  have e3 : c._request.size % 65536 / 256 % 256 = c._request.size / 256 % 256 := by omega
  have e4 : c._request.size % 65536 % 256 = c._request.size % 256 := by omega
  unfold ModbusTCPhead.toBytes
  rw [List.map_cons, List.map_cons, List.map_cons, List.map_cons, List.map_cons,
    List.map_cons, List.map_nil, byte_hi, byte_lo, byte_hi, byte_lo, byte_hi, byte_lo,
    e1, e2, e3, e4]
  simp

/-- C5, witness: the request 1, 3, 0, 0, 0, 1 sent with the counter at 0x1234. -/
theorem send_encoding_witness :
    (_send 0 { connectedClient 0x1234 with
        _isRequestReady := true,
        _request := ModbusMessage.payload [1, 3, 0, 0, 0, 1] }).1 = true ∧
    ∃ head : List Byte,
      head.map Fin.val = [0x1234 / 256 % 256, 0x1234 % 256, 0, 0, 6 / 256 % 256, 6 % 256] ∧
      (_send 0 { connectedClient 0x1234 with
        _isRequestReady := true,
        _request := ModbusMessage.payload [1, 3, 0, 0, 0, 1] }).2.MTA_client.written =
        [] ++ head ++ [1, 3, 0, 0, 0, 1] ∧
      (_send 0 { connectedClient 0x1234 with
        _isRequestReady := true,
        _request := ModbusMessage.payload [1, 3, 0, 0, 0, 1] }).2.MTA_client.sendCalls =
        0 + 1 ∧
      (_send 0 { connectedClient 0x1234 with
        _isRequestReady := true,
        _request := ModbusMessage.payload [1, 3, 0, 0, 0, 1] }).2.MTA_client.connectCalls =
        0 ∧
      (_send 0 { connectedClient 0x1234 with
        _isRequestReady := true,
        _request := ModbusMessage.payload [1, 3, 0, 0, 0, 1] }).2.MTA_client.closeCalls =
        [] :=
  ⟨by decide,
   send_encoding 0 { connectedClient 0x1234 with
        _isRequestReady := true,
        _request := ModbusMessage.payload [1, 3, 0, 0, 0, 1] } (by decide)⟩

/-- C7 (as amended): for every frame whose payload length fits the length field and every
split point that leaves the first part with the complete header but fewer payload bytes than
declared, the decode loop run on the first part accepts nothing: however often its body is
executed, it stores no response, marks nothing ready, consumes no byte and leaves the whole
client as it was, so that nothing of the first part is kept for a later delivery. -/
theorem onData_firstPart_nothing_kept (c : ModbusClientTCPAsyncOne) (tid : Nat) (p : List Byte)
    (k : Nat) (hk : k < p.length) (hp : p.length < 65536) (n : Nat) :
    (fun s : ModbusClientTCPAsyncOne × List Byte => onDataStep s.1 s.2)^[n]
        (c, (frame tid p).take (6 + k)) = (c, (frame tid p).take (6 + k)) ∧
    onDataEmits n c ((frame tid p).take (6 + k)) = [] :=
  ⟨Function.iterate_fixed
      (f := fun s : ModbusClientTCPAsyncOne × List Byte => onDataStep s.1 s.2)
      (onDataStep_firstPart c tid p k hk hp) n,
   onDataEmits_stuck c _ (onDataStep_firstPart c tid p k hk hp) n⟩

/-- C7, witness: the frame 0, 1, 0, 0, 0, 4, 1, 2, 3, 4 cut after its second payload byte. -/
theorem onData_firstPart_nothing_kept_witness :
    (fun s : ModbusClientTCPAsyncOne × List Byte => onDataStep s.1 s.2)^[3]
        (connectedClient 0, (frame 1 [1, 2, 3, 4]).take (6 + 2)) =
      (connectedClient 0, (frame 1 [1, 2, 3, 4]).take (6 + 2)) ∧
    onDataEmits 3 (connectedClient 0) ((frame 1 [1, 2, 3, 4]).take (6 + 2)) = [] :=
  onData_firstPart_nothing_kept (connectedClient 0) 1 [1, 2, 3, 4] 2 (by decide) (by decide) 3

/-- C7, counterexample: the frame with transaction ID 1 and the eight payload bytes
9, 0, 7, 0, 0, 0, 1, 5 is decoded when it arrives whole; cut after seven bytes, its first part
0, 1, 0, 0, 0, 8, 9 makes `_onData` loop without returning, and its remaining bytes
0, 7, 0, 0, 0, 1, 5, delivered to the unchanged client, are decoded as a frame of their own
with payload 5, not as the end of the first frame. -/
theorem onData_firstPart_counterexample :
    (_onData 1 0 (connectedClient 0) (frame 1 [9, 0, 7, 0, 0, 0, 1, 5])).map
        (fun c => (c._isResponseReady, c._response)) =
      some (true, ModbusMessage.payload [9, 0, 7, 0, 0, 0, 1, 5]) ∧
    (¬ ∃ fuel c1, _onData fuel 0 (connectedClient 0)
        ((frame 1 [9, 0, 7, 0, 0, 0, 1, 5]).take 7) = some c1) ∧
    (_onData 1 0 (connectedClient 0) ((frame 1 [9, 0, 7, 0, 0, 0, 1, 5]).drop 7)).map
        (fun c => (c._isResponseReady, c._response)) =
      some (true, ModbusMessage.payload [5]) := by
  refine ⟨by decide, ?_, by decide⟩
  rintro ⟨fuel, c1, h⟩
  have hs : ∀ c0 : ModbusClientTCPAsyncOne,
      onDataStep c0 ((frame 1 [9, 0, 7, 0, 0, 0, 1, 5]).take 7) =
        (c0, (frame 1 [9, 0, 7, 0, 0, 0, 1, 5]).take 7) := fun _ => rfl
  rw [_onData_stuck _ _ (by decide) hs] at h
  cases h

/-- C9: three calls of `syncRequestM` starting with the counter at 5. The first request is
sent with transaction ID 5 and answered. The second finds the transport short of room
(`space()` is 4, the frame needs 8): `_send` returns false after it has incremented the
counter, nothing is handed to the transport and the call times out. The third call repeats
the request with room available: its header carries transaction ID 7, not 6. -/
theorem transactionID_skips_after_failed_send :
    ((syncRequestM (ModbusMessage.payload [1, 3])
          [⟨10, [Event.data (frame 5 [1, 3, 9])]⟩] ⟨connectedClient 5, 0⟩).bind fun r1 =>
      (r1.2.dispatch (Event.status 4 true true 4)).bind fun w1 =>
      (syncRequestM (ModbusMessage.payload [1, 4]) [⟨10000, []⟩] w1).bind fun r2 =>
      (r2.2.dispatch (Event.status 4 true true 1436)).bind fun w2 =>
      (syncRequestM (ModbusMessage.payload [1, 4])
          [⟨10, [Event.data (frame 7 [1, 4, 9])]⟩] w2).map fun r3 =>
      (r1.1, r2.1, r3.1, r3.2.client.MTA_client.written)) =
    some (ModbusMessage.payload [1, 3, 9],
      ModbusMessage.error 1 4 Error.TIMEOUT,
      ModbusMessage.payload [1, 4, 9],
      [0, 5, 0, 0, 0, 2, 1, 3] ++ [0, 7, 0, 0, 0, 2, 1, 4]) := by
  decide!

/-! ## The field MTA_state and the derived connection state -/

namespace World

theorem _state_eq_connected (c : ModbusClientTCPAsyncOne) :
    c._state = ClientState.CONNECTED ↔ c.MTA_client.state = 4 := by
  unfold _state
  split <;> simp_all

theorem onDataStep_MTA_state (c : ModbusClientTCPAsyncOne) (data : List Byte) :
    (onDataStep c data).1.MTA_state = c.MTA_state := by
  unfold onDataStep
  split
  · simp only
    split <;> rfl
  · rfl

theorem onDataLoop_MTA_state (fuel : Nat) :
    ∀ (c : ModbusClientTCPAsyncOne) (data : List Byte) (r : ModbusClientTCPAsyncOne × List Byte),
      onDataLoop fuel c data = some r → r.1.MTA_state = c.MTA_state := by
  induction fuel with
  | zero =>
    intro c data r h
    cases data with
    | nil => rw [onDataLoop_nil] at h; cases h; rfl
    | cons b bs => rw [onDataLoop_zero _ _ (List.cons_ne_nil _ _)] at h; cases h
  | succ n ih =>
    intro c data r h
    cases data with
    | nil => rw [onDataLoop_nil] at h; cases h; rfl
    | cons b bs =>
      rw [onDataLoop_succ _ _ _ (List.cons_ne_nil _ _)] at h
      rw [ih _ _ _ h, onDataStep_MTA_state]

theorem _send_MTA_state (now : Nat) (c : ModbusClientTCPAsyncOne) :
    (_send now c).2.MTA_state = c.MTA_state := by
  unfold _send
  simp only
  split
  · rfl
  · split
    · rfl
    · split <;> rfl

theorem _onData_MTA_state (fuel now : Nat) (c c1 : ModbusClientTCPAsyncOne) (data : List Byte)
    (h : _onData fuel now c data = some c1) : c1.MTA_state = c.MTA_state := by
  unfold _onData at h
  cases hl : onDataLoop fuel { c with MTA_lastActivity := now } data with
  | none => rw [hl] at h; cases h
  | some r =>
    rw [hl] at h
    cases h
    rw [_send_MTA_state, onDataLoop_MTA_state fuel _ _ r hl]

theorem _onPoll_MTA_state (now : Nat) (c : ModbusClientTCPAsyncOne) :
    (_onPoll now c).MTA_state = c.MTA_state := by
  unfold _onPoll
  split <;> rfl

theorem dispatch_MTA_state (w w1 : World) (e : Event) (h : w.dispatch e = some w1) :
    w1.client.MTA_state = w.client.MTA_state := by
  cases e with
  | connect => cases h; rfl
  | disconnect => cases h; rfl
  | error => cases h; rfl
  | ack => cases h; rfl
  | poll => cases h; exact _onPoll_MTA_state _ _
  | status s a b sp => cases h; rfl
  | data bytes =>
    simp only [dispatch] at h
    cases hd : w.client._onData bytes.length w.millis bytes with
    | none => simp [hd] at h
    | some c1 =>
      simp only [hd] at h
      cases h
      exact _onData_MTA_state _ _ _ _ _ hd

theorem deliver_MTA_state (es : List Event) :
    ∀ w w1 : World, w.deliver es = some w1 → w1.client.MTA_state = w.client.MTA_state := by
  induction es with
  | nil => intro w w1 h; cases h; rfl
  | cons e es ih =>
    intro w w1 h
    rw [deliver] at h
    cases hd : w.dispatch e with
    | none => rw [hd] at h; cases h
    | some w2 =>
      rw [hd] at h
      rw [ih w2 w1 h, dispatch_MTA_state w w2 e hd]

theorem delay_MTA_state (w w1 : World) (t : Tick) (h : w.delay t = some w1) :
    w1.client.MTA_state = w.client.MTA_state :=
  deliver_MTA_state t.events { w with clock := w.clock + t.elapsed } w1 h

theorem connectWait_MTA_state (d : Nat) (sched : List Tick) :
    ∀ (w : World) (r : World × List Tick),
      connectWait d sched w = some r → r.1.client.MTA_state = w.client.MTA_state := by
  induction sched with
  | nil =>
    intro w r h
    rw [connectWait] at h
    split at h
    · cases h; rfl
    · split at h
      · cases h; rfl
      · cases h
  | cons t rest ih =>
    intro w r h
    rw [connectWait] at h
    split at h
    · cases h; rfl
    · split at h
      · cases h; rfl
      · cases hd : w.delay t with
        | none => simp [hd] at h
        | some w2 =>
          simp only [hd] at h
          rw [ih w2 r h, delay_MTA_state w w2 t hd]

theorem connect_MTA_state (sched : List Tick) (w : World) (r : World × List Tick)
    (h : connect sched w = some r) : r.1.client.MTA_state = w.client.MTA_state := by
  unfold connect at h
  split at h
  · cases h; rfl
  · exact connectWait_MTA_state _ sched
      { w with client := { w.client with MTA_client := w.client.MTA_client.connect } } r h

theorem awaitResponse_MTA_state (msg : ModbusMessage) (d : Nat) (sched : List Tick) :
    ∀ (w : World) (r : ModbusMessage × World),
      awaitResponse msg d sched w = some r → r.2.client.MTA_state = w.client.MTA_state := by
  induction sched with
  | nil =>
    intro w r h
    rw [awaitResponse] at h
    split at h
    · cases h; rfl
    · split at h
      · cases h; rfl
      · cases h
  | cons t rest ih =>
    intro w r h
    rw [awaitResponse] at h
    split at h
    · cases h; rfl
    · split at h
      · cases h; rfl
      · cases hd : w.delay t with
        | none => simp [hd] at h
        | some w2 =>
          simp only [hd] at h
          rw [ih w2 r h, delay_MTA_state w w2 t hd]

theorem syncRequestM_MTA_state (msg : ModbusMessage) (sched : List Tick) (w : World)
    (r : ModbusMessage × World) (h : syncRequestM msg sched w = some r) :
    r.2.client.MTA_state = w.client.MTA_state := by
  unfold syncRequestM at h
  split at h
  · cases h; rfl
  · simp only at h
    cases hc : connect sched (w.accept msg) with
    | none => simp [hc] at h
    | some r1 =>
      obtain ⟨w1, sched1⟩ := r1
      have h1 : w1.client.MTA_state = w.client.MTA_state :=
        connect_MTA_state sched (w.accept msg) (w1, sched1) hc
      simp only [hc] at h
      split at h
      · cases h; exact h1
      · rw [awaitResponse_MTA_state msg _ sched1 _ r h]
        exact (_send_MTA_state _ _).trans h1

end World

/-! ## Empty messages and idle supervision -/

/-- C14: for every client state, clock and schedule, `syncRequestM` on an empty message
returns at once the error response of kind EMPTY_MESSAGE and leaves the whole world as it
was: nothing is asked of the transport (no connect, no send, no close, no byte written) and
the stored request, the stored response, the ready flags, the transaction counter and the
activity timestamp are unchanged. -/
theorem syncRequestM_empty (msg : ModbusMessage) (sched : List Tick) (w : World)
    (h : msg.isEmpty = true) :
    ∃ r w1, syncRequestM msg sched w = some (r, w1) ∧
      r.errorKind = some Error.EMPTY_MESSAGE ∧
      w1.client.MTA_client = w.client.MTA_client ∧
      w1.client._request = w.client._request ∧
      w1.client._response = w.client._response ∧
      w1.client._isRequestReady = w.client._isRequestReady ∧
      w1.client._isResponseReady = w.client._isResponseReady ∧
      w1.client._transactionID = w.client._transactionID ∧
      w1.client.MTA_lastActivity = w.client.MTA_lastActivity ∧
      w1 = w := by
  refine ⟨ModbusMessage.setError msg.getServerID msg.getFunctionCode Error.EMPTY_MESSAGE, w,
    ?_, rfl, rfl, rfl, rfl, rfl, rfl, rfl, rfl, rfl⟩
  unfold syncRequestM
  rw [if_pos h]

/-- C14, witness: the empty message on a connected client with a request pending. -/
theorem syncRequestM_empty_witness :
    ∃ r w1, syncRequestM (ModbusMessage.payload []) [⟨10, [Event.poll]⟩]
        ⟨{ connectedClient 3 with _isRequestReady := true }, 77⟩ = some (r, w1) ∧
      r.errorKind = some Error.EMPTY_MESSAGE ∧
      w1.client.MTA_client = (connectedClient 3).MTA_client ∧
      w1.client._request = (connectedClient 3)._request ∧
      w1.client._response = (connectedClient 3)._response ∧
      w1.client._isRequestReady = true ∧
      w1.client._isResponseReady = (connectedClient 3)._isResponseReady ∧
      w1.client._transactionID = (connectedClient 3)._transactionID ∧
      w1.client.MTA_lastActivity = (connectedClient 3).MTA_lastActivity ∧
      w1 = ⟨{ connectedClient 3 with _isRequestReady := true }, 77⟩ :=
  syncRequestM_empty (ModbusMessage.payload []) [⟨10, [Event.poll]⟩]
    ⟨{ connectedClient 3 with _isRequestReady := true }, 77⟩ (by decide)

/-- C17: for every transport status code `s`, `_state()` is CONNECTED when `s` is 4,
CONNECTING when `s` is 2 or 3 and DISCONNECTED for every other value; two clients whose
transports report the same code have the same derived state, whatever their other members
hold; and the member `MTA_state` is written by no operation: every callback, `_send`,
`disconnect`, the setters and a whole `syncRequestM` leave it as the constructor set it. -/
theorem state_projection (c c2 : ModbusClientTCPAsyncOne) (w : World) :
    (c.MTA_client.state = 4 → c._state = ClientState.CONNECTED) ∧
    (c.MTA_client.state = 2 ∨ c.MTA_client.state = 3 → c._state = ClientState.CONNECTING) ∧
    (c.MTA_client.state ≠ 4 → c.MTA_client.state ≠ 2 → c.MTA_client.state ≠ 3 →
      c._state = ClientState.DISCONNECTED) ∧
    (c.MTA_client.state = c2.MTA_client.state → c._state = c2._state) ∧
    (∀ now force timeout data,
      (_onConnect now c).MTA_state = c.MTA_state ∧
      c._onDisconnect.MTA_state = c.MTA_state ∧
      (_onAck now c).MTA_state = c.MTA_state ∧
      (_onPoll now c).MTA_state = c.MTA_state ∧
      c._onError.MTA_state = c.MTA_state ∧
      (_send now c).2.MTA_state = c.MTA_state ∧
      (onDataStep c data).1.MTA_state = c.MTA_state ∧
      (c.disconnect force).MTA_state = c.MTA_state ∧
      (c.setTimeout timeout).MTA_state = c.MTA_state ∧
      (c.setIdleTimeout timeout).MTA_state = c.MTA_state) ∧
    (∀ e w1, w.dispatch e = some w1 → w1.client.MTA_state = w.client.MTA_state) ∧
    (∀ msg sched r, syncRequestM msg sched w = some r →
      r.2.client.MTA_state = w.client.MTA_state) := by
  refine ⟨?_, ?_, ?_, ?_, ?_, ?_, ?_⟩
  · intro h
    exact (_state_eq_connected c).2 h
  · intro h
    unfold _state
    rcases h with h | h <;> rw [h]
  · intro h4 h2 h3
    unfold _state
    split
    · exact absurd (by assumption) h4
    · exact absurd (by assumption) h2
    · exact absurd (by assumption) h3
    · rfl
  · intro h
    unfold _state
    rw [h]
  · intro now force timeout data
    exact ⟨rfl, rfl, rfl, _onPoll_MTA_state now c, rfl, _send_MTA_state now c,
      onDataStep_MTA_state c data, rfl, rfl, rfl⟩
  · intro e w1 h
    exact dispatch_MTA_state w w1 e h
  · intro msg sched r h
    exact syncRequestM_MTA_state msg sched w r h

/-- C17, witness: the codes 4, 2, 3 and 0, 1, 5 on clients that differ in `MTA_state`. -/
theorem state_projection_witness :
    (connectedClient 0)._state = ClientState.CONNECTED ∧
    ({ connectedClient 0 with MTA_client := { AsyncClient.fresh with state := 2 } } :
      ModbusClientTCPAsyncOne)._state = ClientState.CONNECTING ∧
    ({ connectedClient 0 with MTA_client := { AsyncClient.fresh with state := 5 } } :
      ModbusClientTCPAsyncOne)._state = ClientState.DISCONNECTED ∧
    (connectedClient 0)._state =
      ({ connectedClient 0 with MTA_state := ClientState.CONNECTING } :
        ModbusClientTCPAsyncOne)._state :=
  ⟨(state_projection (connectedClient 0) (connectedClient 0) ⟨connectedClient 0, 0⟩).1
      (by decide),
   (state_projection { connectedClient 0 with MTA_client := { AsyncClient.fresh with state := 2 } }
      (connectedClient 0) ⟨connectedClient 0, 0⟩).2.1 (by decide),
   (state_projection { connectedClient 0 with MTA_client := { AsyncClient.fresh with state := 5 } }
      (connectedClient 0) ⟨connectedClient 0, 0⟩).2.2.1 (by decide) (by decide) (by decide),
   (state_projection (connectedClient 0)
      { connectedClient 0 with MTA_state := ClientState.CONNECTING }
      ⟨connectedClient 0, 0⟩).2.2.2.1 (by decide)⟩

/-- C18: for every client and every remaining buffer, an execution of the loop body of
`_onData` accepts a frame exactly when more than six bytes remain, protocolID is 0, at least
messageLength + 6 bytes remain and messageLength is below 256; it then stores the
messageLength bytes after the header, marks the response ready and consumes exactly
6 + messageLength bytes. In every other case it changes neither the client nor the parse
position; in particular a buffer of exactly six bytes and a frame that declares 256 payload
bytes or more are never accepted. -/
theorem onDataStep_exact (c : ModbusClientTCPAsyncOne) (data : List Byte) :
    ((data.length > 6 ∧ word16 (data.getD 2 0) (data.getD 3 0) = 0 ∧
        data.length ≥ word16 (data.getD 4 0) (data.getD 5 0) + 6 ∧
        word16 (data.getD 4 0) (data.getD 5 0) < 256) →
      onDataStep c data =
        ({ c with
            _response := ModbusMessage.payload
              (List.take (word16 (data.getD 4 0) (data.getD 5 0)) (List.drop 6 data)),
            _isResponseReady := true },
          data.drop (6 + word16 (data.getD 4 0) (data.getD 5 0))) ∧
      (onDataStep c data).2.length + (6 + word16 (data.getD 4 0) (data.getD 5 0)) =
        data.length) ∧
    (¬ (data.length > 6 ∧ word16 (data.getD 2 0) (data.getD 3 0) = 0 ∧
        data.length ≥ word16 (data.getD 4 0) (data.getD 5 0) + 6 ∧
        word16 (data.getD 4 0) (data.getD 5 0) < 256) →
      onDataStep c data = (c, data)) ∧
    (data.length = 6 → onDataStep c data = (c, data)) ∧
    (256 ≤ word16 (data.getD 4 0) (data.getD 5 0) → onDataStep c data = (c, data)) := by
  have hrej : ¬ (data.length > 6 ∧ word16 (data.getD 2 0) (data.getD 3 0) = 0 ∧
        data.length ≥ word16 (data.getD 4 0) (data.getD 5 0) + 6 ∧
        word16 (data.getD 4 0) (data.getD 5 0) < 256) →
      onDataStep c data = (c, data) := by
    intro h
    unfold onDataStep
    split
    · rename_i h1
      simp only
      rw [if_neg (fun h2 => h ⟨h1, h2⟩)]
    · rfl
  refine ⟨?_, hrej, ?_, ?_⟩
  · rintro ⟨h1, h2⟩
    have hs : onDataStep c data =
        ({ c with
            _response := ModbusMessage.payload
              (List.take (word16 (data.getD 4 0) (data.getD 5 0)) (List.drop 6 data)),
            _isResponseReady := true },
          data.drop (6 + word16 (data.getD 4 0) (data.getD 5 0))) := by
      unfold onDataStep
      rw [if_pos h1]
      simp only
      rw [if_pos h2]
      rfl
    refine ⟨hs, ?_⟩
    rw [hs]
    simp only [List.length_drop]
    omega
  · intro h
    exact hrej (fun h1 => by omega)
  · intro h
    exact hrej (fun h1 => by omega)

/-- C18, witness: the frame 0, 1, 0, 0, 0, 2, 8, 9 is accepted and its eight bytes consumed;
the header-only frame 0, 1, 0, 0, 0, 0 is not. -/
theorem onDataStep_exact_witness :
    (onDataStep (connectedClient 0) [0, 1, 0, 0, 0, 2, 8, 9] =
        ({ connectedClient 0 with
            _response := ModbusMessage.payload [8, 9], _isResponseReady := true }, []) ∧
      (onDataStep (connectedClient 0) [0, 1, 0, 0, 0, 2, 8, 9]).2.length + (6 + 2) = 8) ∧
    onDataStep (connectedClient 0) [0, 1, 0, 0, 0, 0] =
      (connectedClient 0, [0, 1, 0, 0, 0, 0]) :=
  ⟨(onDataStep_exact (connectedClient 0) [0, 1, 0, 0, 0, 2, 8, 9]).1 (by decide),
   (onDataStep_exact (connectedClient 0) [0, 1, 0, 0, 0, 0]).2.2.1 (by decide)⟩

/-! ## Several frames in one delivery -/

theorem frames_append_last_pos (fs : List (Nat × List Byte)) (last : Nat × List Byte) :
    0 < (frames (fs ++ [last])).length := by
  cases fs with
  | nil =>
    show 0 < (frame last.1 last.2 ++ frames []).length
    rw [List.length_append, frame_length]; omega
  | cons f fs =>
    show 0 < (frame f.1 f.2 ++ frames (fs ++ [last])).length
    rw [List.length_append, frame_length]; omega

/-- The decode loop on a delivery of several acceptable frames, the last one not empty: it
returns after one execution of the body per frame, with the payload of the last frame stored
and the buffer used up. -/
theorem onDataLoop_frames (last : Nat × List Byte) (hl1 : 0 < last.2.length)
    (hl2 : last.2.length < 256) (k : Nat) (fs : List (Nat × List Byte)) :
    ∀ c : ModbusClientTCPAsyncOne, (∀ f ∈ fs, f.2.length < 256) →
      onDataLoop (fs.length + 1 + k) c (frames (fs ++ [last])) =
        some ({ c with _response := ModbusMessage.payload last.2,
                       _isResponseReady := true }, []) := by
  induction fs with
  | nil =>
    intro c _
    show onDataLoop (0 + 1 + k) c (frame last.1 last.2 ++ []) = _
    rw [Nat.add_right_comm, onDataLoop_frame _ c last.1 last.2 [] hl2 (by simpa using hl1),
      onDataLoop_nil]
  | cons f fs ih =>
    intro c h
    show onDataLoop (fs.length + 1 + 1 + k) c (frame f.1 f.2 ++ frames (fs ++ [last])) = _
    have hpos := frames_append_last_pos fs last
    rw [Nat.add_right_comm, onDataLoop_frame _ c f.1 f.2 _ (h f (List.mem_cons_self _ _))
      (by omega), ih _ (fun x hx => h x (List.mem_cons_of_mem _ hx))]

/-- C19: for every delivery that is the concatenation of one or more frames with protocolID
0 whose payloads are shorter than 256 bytes, the last payload not empty, `_onData` returns
(one execution of the loop body per frame is enough) with the response marked ready and the
stored response equal to the payload of the last frame; the payloads of the earlier frames
are gone, and the wait loop of `syncRequestM` that finds this client returns the payload of
the last frame. -/
theorem onData_last_frame_wins (c : ModbusClientTCPAsyncOne) (now fuel : Nat)
    (fs : List (Nat × List Byte)) (last : Nat × List Byte)
    (hshort : ∀ f ∈ fs, f.2.length < 256)
    (hl1 : 0 < last.2.length) (hl2 : last.2.length < 256)
    (hfuel : fs.length + 1 ≤ fuel) :
    ∃ c1, _onData fuel now c (frames (fs ++ [last])) = some c1 ∧
      c1._isResponseReady = true ∧
      c1._response = ModbusMessage.payload last.2 ∧
      ∀ (msg : ModbusMessage) (d clock : Nat) (sched : List Tick),
        (awaitResponse msg d sched ⟨c1, clock⟩).map Prod.fst =
          some (ModbusMessage.payload last.2) := by
  obtain ⟨k, rfl⟩ : ∃ k, fuel = fs.length + 1 + k := ⟨fuel - (fs.length + 1), by omega⟩
  have hl := onDataLoop_frames last hl1 hl2 k fs { c with MTA_lastActivity := now } hshort
  unfold _onData
  rw [hl]
  refine ⟨_, rfl, (_send_response now _).2, (_send_response now _).1, ?_⟩
  intro msg d clock sched
  rw [awaitResponse_ready msg d sched _ (_send_response now _).2]
  exact congrArg some (_send_response now _).1

/-- C19, witness: three frames in one delivery; the payload 7, 8, 9 of the last one is what
remains. -/
theorem onData_last_frame_wins_witness :
    ∃ c1, _onData 3 0 (connectedClient 0)
        (frames ([(1, [1, 2]), (2, [])] ++ [(3, [7, 8, 9])])) = some c1 ∧
      c1._isResponseReady = true ∧
      c1._response = ModbusMessage.payload [7, 8, 9] ∧
      ∀ (msg : ModbusMessage) (d clock : Nat) (sched : List Tick),
        (awaitResponse msg d sched ⟨c1, clock⟩).map Prod.fst =
          some (ModbusMessage.payload [7, 8, 9]) :=
  onData_last_frame_wins (connectedClient 0) 0 3 [(1, [1, 2]), (2, [])] (3, [7, 8, 9])
    (by decide) (by decide) (by decide) (by decide)

/-! ## Connect failure -/

namespace World

theorem _onPoll_down (now : Nat) (c : ModbusClientTCPAsyncOne)
    (hs : c.MTA_client.state ≠ 4) :
    (_onPoll now c).MTA_client.state ≠ 4 ∧
    (_onPoll now c).MTA_client.written = c.MTA_client.written ∧
    (_onPoll now c).MTA_client.sendCalls = c.MTA_client.sendCalls ∧
    (_onPoll now c).MTA_client.connectCalls = c.MTA_client.connectCalls := by
  unfold _onPoll
  split
  · exact ⟨(show (0 : Nat) ≠ 4 by decide), rfl, rfl, rfl⟩
  · exact ⟨hs, rfl, rfl, rfl⟩

/-- A notification that carries no data and does not report an established connection is
handled by a callback that returns, hands nothing to the transport and leaves the connection
not established. -/
theorem dispatch_down (w : World) (e : Event) (he : e.down = true)
    (hs : w.client.MTA_client.state ≠ 4) :
    ∃ w1, w.dispatch e = some w1 ∧ w1.clock = w.clock ∧
      w1.client.MTA_client.state ≠ 4 ∧
      w1.client.MTA_client.written = w.client.MTA_client.written ∧
      w1.client.MTA_client.sendCalls = w.client.MTA_client.sendCalls ∧
      w1.client.MTA_client.connectCalls = w.client.MTA_client.connectCalls := by
  cases e with
  | data bytes => cases he
  | disconnect => exact ⟨_, rfl, rfl, hs, rfl, rfl, rfl⟩
  | connect => exact ⟨_, rfl, rfl, hs, rfl, rfl, rfl⟩
  | error => exact ⟨_, rfl, rfl, (show (0 : Nat) ≠ 4 by decide), rfl, rfl, rfl⟩
  | ack => exact ⟨_, rfl, rfl, hs, rfl, rfl, rfl⟩
  | poll =>
    obtain ⟨h1, h2, h3, h4⟩ := _onPoll_down w.millis w.client hs
    exact ⟨_, rfl, rfl, h1, h2, h3, h4⟩
  | status s a b sp =>
    refine ⟨_, rfl, rfl, ?_, rfl, rfl, rfl⟩
    simpa [Event.down] using he

theorem deliver_down (es : List Event) :
    ∀ w : World, (∀ e ∈ es, e.down = true) → w.client.MTA_client.state ≠ 4 →
      ∃ w1, w.deliver es = some w1 ∧ w1.clock = w.clock ∧
        w1.client.MTA_client.state ≠ 4 ∧
        w1.client.MTA_client.written = w.client.MTA_client.written ∧
        w1.client.MTA_client.sendCalls = w.client.MTA_client.sendCalls ∧
        w1.client.MTA_client.connectCalls = w.client.MTA_client.connectCalls := by
  induction es with
  | nil => intro w _ hs; exact ⟨w, rfl, rfl, hs, rfl, rfl, rfl⟩
  | cons e es ih =>
    intro w h hs
    obtain ⟨w1, h1, hc, hs1, hw, hn, hk⟩ := dispatch_down w e (h e (List.mem_cons_self _ _)) hs
    obtain ⟨w2, h2, hc2, hs2, hw2, hn2, hk2⟩ :=
      ih w1 (fun x hx => h x (List.mem_cons_of_mem _ hx)) hs1
    refine ⟨w2, ?_, hc2.trans hc, hs2, hw2.trans hw, hn2.trans hn, hk2.trans hk⟩
    rw [deliver, h1]
    exact h2

theorem connectWait_tick (d : Nat) (t : Tick) (rest : List Tick) (w w1 : World)
    (hs : w.client.MTA_client.state ≠ 4) (ht : w.millis < d) (hd : w.delay t = some w1) :
    connectWait d (t :: rest) w = connectWait d rest w1 := by
  have hn : ¬ w.client._state = ClientState.CONNECTED := fun h =>
    hs ((_state_eq_connected _).1 h)
  rw [connectWait]
  simp [hn, hd, Nat.not_le.mpr ht]

theorem connectWait_deadline (d : Nat) (sched : List Tick) (w : World)
    (hs : w.client.MTA_client.state ≠ 4) (ht : d ≤ w.millis) :
    connectWait d sched w = some ({ w with client := w.client.disconnect true }, sched) := by
  have hn : ¬ w.client._state = ClientState.CONNECTED := fun h =>
    hs ((_state_eq_connected _).1 h)
  cases sched <;> simp [connectWait, hn, ht]

/-- While the connection is not established, only notifications without data arrive and every
check of the loop reads a clock below the deadline, the wait loop of `connect` keeps
waiting and nothing is handed to the transport. -/
theorem connectWait_down (d : Nat) (rest : List Tick) (quiet : List Tick) :
    ∀ w : World, w.client.MTA_client.state ≠ 4 →
      (∀ t ∈ quiet, ∀ e ∈ t.events, e.down = true) →
      (∀ k, k < quiet.length →
        (w.clock + ((quiet.take k).map Tick.elapsed).sum) % 4294967296 < d) →
      ∃ w1, connectWait d (quiet ++ rest) w = connectWait d rest w1 ∧
        w1.clock = w.clock + (quiet.map Tick.elapsed).sum ∧
        w1.client.MTA_client.state ≠ 4 ∧
        w1.client.MTA_client.written = w.client.MTA_client.written ∧
        w1.client.MTA_client.sendCalls = w.client.MTA_client.sendCalls ∧
        w1.client.MTA_client.connectCalls = w.client.MTA_client.connectCalls := by
  induction quiet with
  | nil => intro w h _ _; exact ⟨w, rfl, by simp, h, rfl, rfl, rfl⟩
  | cons t quiet ih =>
    intro w hs hq ht
    obtain ⟨w1, h1, hc, hs1, hw, hn, hk⟩ :=
      deliver_down t.events { w with clock := w.clock + t.elapsed }
        (hq t (List.mem_cons_self _ _)) hs
    have ht0 : w.millis < d := by
      have := ht 0 (by simp)
      simpa [millis] using this
    obtain ⟨w2, h2, hc2, hs2, hw2, hn2, hk2⟩ := ih w1 hs1
      (fun x hx => hq x (List.mem_cons_of_mem _ hx))
      (fun k hk => by
        have := ht (k + 1) (by simpa using hk)
        simpa [hc, Nat.add_assoc] using this)
    refine ⟨w2, ?_, ?_, hs2, hw2.trans hw, hn2.trans hn, hk2.trans hk⟩
    · rw [List.cons_append, connectWait_tick d t _ w w1 hs ht0 h1]
      exact h2
    · rw [hc2, hc]; simp [Nat.add_assoc]

end World

/-- C13: for every non-empty request issued while the connection is not established, if only
notifications without data arrive, none of them reports the connection established, and a
check of the wait loop of `connect` reads the clock at or past the deadline, then `connect`
forces a disconnect (`close(true)` is the last call made to the transport, after one
`connect`) and `syncRequestM` returns the error response of kind IP_CONNECTION_FAILED that
carries the server ID and function code of the request; no byte is handed to the transport
and `send()` is not called. -/
theorem syncRequestM_connect_failure (msg : ModbusMessage) (w : World)
    (quiet rest : List Tick)
    (hmsg : msg.isEmpty = false)
    (hdown : w.client.MTA_client.state ≠ 4)
    (hev : ∀ t ∈ quiet, ∀ e ∈ t.events, e.down = true)
    (htime : ∀ k, k < quiet.length →
      (w.clock + ((quiet.take k).map Tick.elapsed).sum) % 4294967296 <
        (w.millis + w.client.MTA_timeout) % 4294967296)
    (hlast : (w.millis + w.client.MTA_timeout) % 4294967296 ≤
      (w.clock + (quiet.map Tick.elapsed).sum) % 4294967296) :
    ∃ w3, syncRequestM msg (quiet ++ rest) w =
        some (ModbusMessage.error msg.getServerID msg.getFunctionCode
          Error.IP_CONNECTION_FAILED, w3) ∧
      w3.client.MTA_client.written = w.client.MTA_client.written ∧
      w3.client.MTA_client.sendCalls = w.client.MTA_client.sendCalls ∧
      w3.client.MTA_client.connectCalls = w.client.MTA_client.connectCalls + 1 ∧
      w3.client.MTA_client.closeCalls.getLast? = some true := by
  let w0 : World :=
    { w.accept msg with
      client := { (w.accept msg).client with MTA_client := w.client.MTA_client.connect } }
  obtain ⟨w1, hq, hc1, hs1, hw1, hn1, hk1⟩ := connectWait_down
    ((w.millis + w.client.MTA_timeout) % 4294967296) rest quiet w0 hdown hev htime
  have hd1 : (w.millis + w.client.MTA_timeout) % 4294967296 ≤ w1.millis := by
    show _ ≤ w1.clock % 4294967296
    rw [hc1]; exact hlast
  have hn : ¬ (w.accept msg).client._state = ClientState.CONNECTED := fun h =>
    hdown ((_state_eq_connected _).1 h)
  have hconn : connect (quiet ++ rest) (w.accept msg) =
      some ({ w1 with client := w1.client.disconnect true }, rest) := by
    unfold connect
    rw [if_neg hn]
    show connectWait ((w.millis + w.client.MTA_timeout) % 4294967296) (quiet ++ rest) w0 = _
    rw [hq, connectWait_deadline _ rest w1 hs1 hd1]
  refine ⟨{ w1 with client := w1.client.disconnect true }, ?_, hw1, hn1, hk1, ?_⟩
  · unfold syncRequestM
    rw [hmsg]
    simp only [Bool.false_eq_true, if_false, hconn]
    have hclosed : ({ w1 with client := w1.client.disconnect true } : World).client._state ≠
        ClientState.CONNECTED := fun h =>
      absurd ((_state_eq_connected _).1 h) (show (0 : Nat) ≠ 4 by decide)
    rw [if_pos hclosed]
    rfl
  · show (w1.client.MTA_client.closeCalls ++ [true]).getLast? = some true
    simp

/-- C13, witness: a request on a freshly constructed client at clock 100 with the default
timeout; the transport reports status code 2 (connecting) during the first delay, a poll
tick comes during the second, which ends at clock 10110, past the deadline 10100. -/
theorem syncRequestM_connect_failure_witness :
    ∃ w3, syncRequestM (ModbusMessage.payload [1, 3, 0, 0, 0, 1])
        ([⟨10, [Event.status 2 false false 0]⟩, ⟨10000, [Event.poll]⟩] ++ [])
        ⟨ModbusClientTCPAsyncOne.new 502 100 0, 100⟩ =
        some (ModbusMessage.error 1 3 Error.IP_CONNECTION_FAILED, w3) ∧
      w3.client.MTA_client.written = [] ∧
      w3.client.MTA_client.sendCalls = 0 ∧
      w3.client.MTA_client.connectCalls = 0 + 1 ∧
      w3.client.MTA_client.closeCalls.getLast? = some true :=
  syncRequestM_connect_failure (ModbusMessage.payload [1, 3, 0, 0, 0, 1])
    ⟨ModbusClientTCPAsyncOne.new 502 100 0, 100⟩
    [⟨10, [Event.status 2 false false 0]⟩, ⟨10000, [Event.poll]⟩] []
    (by decide) (by decide) (by decide)
    (by
      intro k hk
      have hk1 : k < 2 := hk
      interval_cases k <;> decide)
    (by decide)

/-! ## Send failure and the response deadline -/

namespace World

/-- A call of `_send` that returns false hands nothing to the transport and leaves the
request as pending as it was. -/
theorem _send_false (now : Nat) (c : ModbusClientTCPAsyncOne) (h : (_send now c).1 = false) :
    (_send now c).2.MTA_client = c.MTA_client ∧
    (_send now c).2._isRequestReady = c._isRequestReady ∧
    (_send now c).2._request = c._request := by
  unfold _send at h ⊢
  simp only at h ⊢
  split
  · exact ⟨rfl, rfl, rfl⟩
  · split
    · exact ⟨rfl, rfl, rfl⟩
    · split
      · exact ⟨rfl, rfl, rfl⟩
      · rename_i h1 h2 h3
        rw [if_neg h1, if_neg h2, if_neg h3] at h
        cases h

theorem _onPoll_kept (now : Nat) (c : ModbusClientTCPAsyncOne) :
    (_onPoll now c)._isRequestReady = c._isRequestReady ∧
    (_onPoll now c).MTA_client.written = c.MTA_client.written ∧
    (_onPoll now c).MTA_client.sendCalls = c.MTA_client.sendCalls := by
  unfold _onPoll
  split <;> exact ⟨rfl, rfl, rfl⟩

/-- A silent notification leaves the pending flag of the request and what the transport was
handed as they were. -/
theorem dispatch_silent_kept (w w1 : World) (e : Event) (h : e.silent = true)
    (hd : w.dispatch e = some w1) :
    w1.client._isRequestReady = w.client._isRequestReady ∧
    w1.client.MTA_client.written = w.client.MTA_client.written ∧
    w1.client.MTA_client.sendCalls = w.client.MTA_client.sendCalls := by
  cases e with
  | data bytes => cases h
  | disconnect => cases h
  | connect => cases hd; exact ⟨rfl, rfl, rfl⟩
  | error => cases hd; exact ⟨rfl, rfl, rfl⟩
  | ack => cases hd; exact ⟨rfl, rfl, rfl⟩
  | poll => cases hd; exact _onPoll_kept _ _
  | status s a b sp => cases hd; exact ⟨rfl, rfl, rfl⟩

theorem deliver_silent_kept (es : List Event) :
    ∀ w w1 : World, (∀ e ∈ es, e.silent = true) → w.deliver es = some w1 →
      w1.client._isRequestReady = w.client._isRequestReady ∧
      w1.client.MTA_client.written = w.client.MTA_client.written ∧
      w1.client.MTA_client.sendCalls = w.client.MTA_client.sendCalls := by
  induction es with
  | nil => intro w w1 _ h; cases h; exact ⟨rfl, rfl, rfl⟩
  | cons e es ih =>
    intro w w1 hs h
    rw [deliver] at h
    cases hd : w.dispatch e with
    | none => rw [hd] at h; cases h
    | some w2 =>
      rw [hd] at h
      obtain ⟨a1, a2, a3⟩ := dispatch_silent_kept w w2 e (hs e (List.mem_cons_self _ _)) hd
      obtain ⟨b1, b2, b3⟩ := ih w2 w1 (fun x hx => hs x (List.mem_cons_of_mem _ hx)) h
      exact ⟨b1.trans a1, b2.trans a2, b3.trans a3⟩

theorem awaitResponse_deadline (msg : ModbusMessage) (d : Nat) (sched : List Tick) (w : World)
    (h : w.client._isResponseReady = false) (ht : d ≤ w.millis) :
    awaitResponse msg d sched w =
      some (ModbusMessage.error msg.getServerID msg.getFunctionCode Error.TIMEOUT, w) := by
  cases sched <;> simp [awaitResponse, h, ht, ModbusMessage.setError]

/-- The wait loop of `syncRequestM` under silent notifications only, with what it leaves
untouched: the pending flag of the request and what the transport was handed. -/
theorem awaitResponse_quiet_kept (msg : ModbusMessage) (d : Nat) (rest : List Tick)
    (quiet : List Tick) :
    ∀ w : World, w.client._isResponseReady = false →
      (∀ t ∈ quiet, ∀ e ∈ t.events, e.silent = true) →
      (∀ k, k < quiet.length →
        (w.clock + ((quiet.take k).map Tick.elapsed).sum) % 4294967296 < d) →
      ∃ w1, awaitResponse msg d (quiet ++ rest) w = awaitResponse msg d rest w1 ∧
        w1.clock = w.clock + (quiet.map Tick.elapsed).sum ∧
        w1.client._isResponseReady = false ∧
        w1.client._isRequestReady = w.client._isRequestReady ∧
        w1.client.MTA_client.written = w.client.MTA_client.written ∧
        w1.client.MTA_client.sendCalls = w.client.MTA_client.sendCalls := by
  induction quiet with
  | nil => intro w h _ _; exact ⟨w, rfl, by simp, h, rfl, rfl, rfl⟩
  | cons t quiet ih =>
    intro w hr hq ht
    obtain ⟨w1, h1, hc, hr1, -⟩ := delay_silent w t (hq t (List.mem_cons_self _ _))
    obtain ⟨a1, a2, a3⟩ := deliver_silent_kept t.events
      { w with clock := w.clock + t.elapsed } w1 (hq t (List.mem_cons_self _ _)) h1
    have ht0 : w.millis < d := by
      have := ht 0 (by simp)
      simpa [millis] using this
    obtain ⟨w2, h2, hc2, hr2, b1, b2, b3⟩ := ih w1 (hr1.trans hr)
      (fun x hx => hq x (List.mem_cons_of_mem _ hx))
      (fun k hk => by
        have := ht (k + 1) (by simpa using hk)
        simpa [hc, Nat.add_assoc] using this)
    refine ⟨w2, ?_, ?_, hr2, b1.trans a1, b2.trans a2, b3.trans a3⟩
    · rw [List.cons_append, awaitResponse_tick msg d t _ w w1 hr ht0 h1]
      exact h2
    · rw [hc2, hc]; simp [Nat.add_assoc]

end World

/-- C12 (as amended): for every non-empty request for which `connect()` returns with the
transport connected, if `_send` returns false (the transport is not connected, cannot send,
or has less room than the request size + 6), `syncRequestM` returns no send-failure error:
nothing is handed to the transport, the request stays pending (`_isRequestReady` true) and
the call waits in the response loop; if only notifications without data or disconnect arrive,
it returns the error response of kind TIMEOUT with the server ID and function code of the
request, as soon as a check of the loop reads the clock at or past the deadline. -/
theorem syncRequestM_send_failure (msg : ModbusMessage) (w w1 : World)
    (sched quiet rest : List Tick)
    (hmsg : msg.isEmpty = false)
    (hconn : connect sched (w.accept msg) = some (w1, quiet ++ rest))
    (hstate : w1.client._state = ClientState.CONNECTED)
    (hnot : w1.client._isResponseReady = false)
    (hreq : w1.client._isRequestReady = true)
    (hfail : (_send w1.millis w1.client).1 = false)
    (hquiet : ∀ t ∈ quiet, ∀ e ∈ t.events, e.silent = true)
    (htime : ∀ k, k < quiet.length →
      (w1.clock + ((quiet.take k).map Tick.elapsed).sum) % 4294967296 <
        (w1.millis + w1.client.MTA_timeout) % 4294967296)
    (hlast : (w1.millis + w1.client.MTA_timeout) % 4294967296 ≤
      (w1.clock + (quiet.map Tick.elapsed).sum) % 4294967296) :
    ∃ w3, syncRequestM msg sched w =
        some (ModbusMessage.error msg.getServerID msg.getFunctionCode Error.TIMEOUT, w3) ∧
      w3.clock = w1.clock + (quiet.map Tick.elapsed).sum ∧
      w3.client._isRequestReady = true ∧
      w3.client.MTA_client.written = w1.client.MTA_client.written ∧
      w3.client.MTA_client.sendCalls = w1.client.MTA_client.sendCalls := by
  obtain ⟨f1, f2, -⟩ := _send_false w1.millis w1.client hfail
  have hs : syncRequestM msg sched w =
      awaitResponse msg ((w1.millis + w1.client.MTA_timeout) % 4294967296) (quiet ++ rest)
        { w1 with client := (_send w1.millis w1.client).2 } := by
    unfold syncRequestM
    rw [hmsg]
    simp only [Bool.false_eq_true, if_false, hconn, hstate, ne_eq, not_true_eq_false]
    simp only [millis, _send_timeout]
  obtain ⟨w3, hq, hc3, hr3, a1, a2, a3⟩ := awaitResponse_quiet_kept msg
    ((w1.millis + w1.client.MTA_timeout) % 4294967296) rest quiet
    { w1 with client := (_send w1.millis w1.client).2 }
    ((_send_response _ _).2.trans hnot) hquiet htime
  have hd3 : (w1.millis + w1.client.MTA_timeout) % 4294967296 ≤ w3.millis := by
    show _ ≤ w3.clock % 4294967296
    rw [hc3]; exact hlast
  refine ⟨w3, ?_, hc3, ?_, ?_, ?_⟩
  · rw [hs, hq, awaitResponse_deadline msg _ rest w3 hr3 hd3]
  · rw [a1]; exact f2.trans hreq
  · rw [a2]; exact congrArg AsyncClient.written f1
  · rw [a3]; exact congrArg AsyncClient.sendCalls f1

/-- C12, witness: the transport has room for 4 bytes and the frame needs 12; only a poll
tick arrives, and the delay ends at clock 10100, the deadline. -/
theorem syncRequestM_send_failure_witness :
    ∃ w3, syncRequestM (ModbusMessage.payload [1, 3, 0, 0, 0, 1])
        ([⟨10000, [Event.poll]⟩] ++ [])
        ⟨{ connectedClient 0 with MTA_client := AsyncClient.established 4 }, 100⟩ =
        some (ModbusMessage.error 1 3 Error.TIMEOUT, w3) ∧
      w3.clock = 100 + 10000 ∧
      w3.client._isRequestReady = true ∧
      w3.client.MTA_client.written = [] ∧
      w3.client.MTA_client.sendCalls = 0 :=
  syncRequestM_send_failure (ModbusMessage.payload [1, 3, 0, 0, 0, 1])
    ⟨{ connectedClient 0 with MTA_client := AsyncClient.established 4 }, 100⟩
    (World.accept ⟨{ connectedClient 0 with MTA_client := AsyncClient.established 4 }, 100⟩
      (ModbusMessage.payload [1, 3, 0, 0, 0, 1]))
    ([⟨10000, [Event.poll]⟩] ++ []) [⟨10000, [Event.poll]⟩] []
    (by decide) (connect_connected _ _ (by decide)) (by decide) (by decide) (by decide)
    (by decide) (by decide)
    (by
      intro k hk
      have hk1 : k < 1 := hk
      interval_cases k; decide)
    (by decide)

/-- C12, counterexample: the request 1, 3, 0, 0, 0, 1 issued at clock 100 on a connected
transport with room for 4 bytes (the frame needs 12). With no notification the call waits
until clock 10100 and returns TIMEOUT, nothing having been handed to the transport. With the
room restored and a frame received during the first delay, `_onData` calls `_send` again: the
request is handed to the transport then (with transaction ID 1, the failed attempt having
used up 0) and the call returns the payload received. In neither run is a send failure
reported. -/
theorem syncRequestM_send_failure_counterexample :
    (syncRequestM (ModbusMessage.payload [1, 3, 0, 0, 0, 1]) [⟨10000, []⟩]
        ⟨{ connectedClient 0 with MTA_client := AsyncClient.established 4 }, 100⟩).map
      (fun r => (r.1, r.2.clock, r.2.client.MTA_client.written)) =
      some (ModbusMessage.error 1 3 Error.TIMEOUT, 10100, []) ∧
    (syncRequestM (ModbusMessage.payload [1, 3, 0, 0, 0, 1])
        [⟨10, [Event.status 4 true true 1436, Event.data (frame 0 [1, 3, 2, 0, 5])]⟩]
        ⟨{ connectedClient 0 with MTA_client := AsyncClient.established 4 }, 100⟩).map
      (fun r => (r.1, r.2.clock, r.2.client.MTA_client.written)) =
      some (ModbusMessage.payload [1, 3, 2, 0, 5], 110,
        [0, 1, 0, 0, 0, 6, 1, 3, 0, 0, 0, 1]) := by
  constructor <;> decide!

/-- C11: the request 1, 3, 0, 0, 0, 1 issued on a connected client when the clock reads
4294967290, six milliseconds before it wraps, with the default response timeout 10000. The
deadline `millis() + MTA_timeout` wraps to 9994, the first check of the wait loop finds
`millis() >= _timeout`, and `syncRequestM` returns TIMEOUT at once, whatever the schedule
holds: no `delay` is taken and the clock still reads 4294967290. -/
theorem syncRequestM_timeout_at_wrap (sched : List Tick) :
    ∃ w3, syncRequestM (ModbusMessage.payload [1, 3, 0, 0, 0, 1]) sched
        ⟨connectedClient 0, 4294967290⟩ =
        some (ModbusMessage.error 1 3 Error.TIMEOUT, w3) ∧
      w3.clock = 4294967290 ∧
      w3.client.MTA_timeout = 10000 ∧
      w3.client.MTA_client.written = [0, 0, 0, 0, 0, 6, 1, 3, 0, 0, 0, 1] := by
  have hconn := connect_connected sched
    (World.accept ⟨connectedClient 0, 4294967290⟩ (ModbusMessage.payload [1, 3, 0, 0, 0, 1]))
    (by decide)
  have hs : syncRequestM (ModbusMessage.payload [1, 3, 0, 0, 0, 1]) sched
      ⟨connectedClient 0, 4294967290⟩ =
      awaitResponse (ModbusMessage.payload [1, 3, 0, 0, 0, 1]) 9994 sched
        ⟨(_send 4294967290 (World.accept ⟨connectedClient 0, 4294967290⟩
          (ModbusMessage.payload [1, 3, 0, 0, 0, 1])).client).2, 4294967290⟩ := by
    unfold syncRequestM
    rw [if_neg (by decide)]
    simp only [hconn]
    rw [if_neg (by decide)]
    rfl
  rw [hs, awaitResponse_deadline _ 9994 sched _ (by decide) (by decide)]
  exact ⟨_, rfl, rfl, by decide, by decide⟩

/-! ## In-flight bookkeeping -/

/-- C16: two return paths of `syncRequestM` leave `_isRequestReady` set. On a freshly
constructed client at clock 100 the request 1, 3, 0, 0, 0, 1 fails to connect within the
timeout: the call returns IP_CONNECTION_FAILED with `_isRequestReady` true, and when the
transport is connected later and a frame arrives, `_onData` hands the old request to the
transport. On a connected client whose transport has room for 4 bytes only, the call returns
TIMEOUT, again with `_isRequestReady` true. -/
theorem syncRequestM_error_paths_keep_request :
    (syncRequestM (ModbusMessage.payload [1, 3, 0, 0, 0, 1]) [⟨10000, []⟩]
        ⟨ModbusClientTCPAsyncOne.new 502 100 0, 100⟩).map
      (fun r => (r.1, r.2.client._isRequestReady, r.2.client._isResponseReady)) =
      some (ModbusMessage.error 1 3 Error.IP_CONNECTION_FAILED, true, false) ∧
    ((syncRequestM (ModbusMessage.payload [1, 3, 0, 0, 0, 1]) [⟨10000, []⟩]
        ⟨ModbusClientTCPAsyncOne.new 502 100 0, 100⟩).bind fun r =>
      (r.2.dispatch (Event.status 4 true true 1436)).bind fun w1 =>
      (w1.dispatch (Event.data (frame 9 [1, 3, 9]))).map fun w2 =>
      w2.client.MTA_client.written) =
      some [0, 0, 0, 0, 0, 6, 1, 3, 0, 0, 0, 1] ∧
    (syncRequestM (ModbusMessage.payload [1, 3, 0, 0, 0, 1]) [⟨10000, []⟩]
        ⟨{ connectedClient 0 with MTA_client := AsyncClient.established 4 }, 100⟩).map
      (fun r => (r.1, r.2.client._isRequestReady, r.2.client._isResponseReady)) =
      some (ModbusMessage.error 1 3 Error.TIMEOUT, true, false) := by
  refine ⟨?_, ?_, ?_⟩ <;> decide!

/-! ## A dropped connection and the wrapped deadline -/

/-- C10: the request 1, 3, 0, 0, 0, 1 issued on a connected client when the clock reads
4294967290, with the default response timeout 10000, and the connection dropped one
millisecond after the send, long before the 10000 ms have passed. The deadline
`millis() + MTA_timeout` wraps to 9994, the first check of the wait loop finds
`millis() >= _timeout` and `syncRequestM` returns TIMEOUT, not IP_CONNECTION_FAILED, before
`_onDisconnect` can be delivered: the clock still reads 4294967290 and no response is marked
ready. The same request with the same notification at clock 100 returns
IP_CONNECTION_FAILED. -/
theorem syncRequestM_disconnect_lost_at_wrap (rest : List Tick) :
    (∃ w3, syncRequestM (ModbusMessage.payload [1, 3, 0, 0, 0, 1])
        (⟨1, [Event.disconnect]⟩ :: rest) ⟨connectedClient 0, 4294967290⟩ =
        some (ModbusMessage.error 1 3 Error.TIMEOUT, w3) ∧
      w3.clock = 4294967290 ∧
      w3.client.MTA_timeout = 10000 ∧
      w3.client._isResponseReady = false ∧
      ModbusMessage.errorKind (ModbusMessage.error 1 3 Error.TIMEOUT) ≠
        some Error.IP_CONNECTION_FAILED) ∧
    (syncRequestM (ModbusMessage.payload [1, 3, 0, 0, 0, 1])
        [⟨1, [Event.disconnect]⟩] ⟨connectedClient 0, 100⟩).map
      (fun r => (r.1, r.2.clock)) =
      some (ModbusMessage.error 0 0 Error.IP_CONNECTION_FAILED, 101) := by
  constructor
  · have hconn := connect_connected (⟨1, [Event.disconnect]⟩ :: rest)
      (World.accept ⟨connectedClient 0, 4294967290⟩
        (ModbusMessage.payload [1, 3, 0, 0, 0, 1]))
      (by decide)
    have hs : syncRequestM (ModbusMessage.payload [1, 3, 0, 0, 0, 1])
        (⟨1, [Event.disconnect]⟩ :: rest) ⟨connectedClient 0, 4294967290⟩ =
        awaitResponse (ModbusMessage.payload [1, 3, 0, 0, 0, 1]) 9994
          (⟨1, [Event.disconnect]⟩ :: rest)
          ⟨(_send 4294967290 (World.accept ⟨connectedClient 0, 4294967290⟩
            (ModbusMessage.payload [1, 3, 0, 0, 0, 1])).client).2, 4294967290⟩ := by
      unfold syncRequestM
      rw [if_neg (by decide)]
      simp only [hconn]
      rw [if_neg (by decide)]
      rfl
    rw [hs, awaitResponse_deadline _ 9994 _ _ (by decide) (by decide)]
    exact ⟨_, rfl, rfl, by decide, by decide, by decide⟩
  · decide

end EModbus
